import Mathlib

/-!
# Sonoff TX Ultimate touch panel: frame reader, event decoder and dispatch

A shallow embedding of `esphome/components/sonoff_tx_ultimate/sonoff_tx_ultimate.cpp`
and of `binary_sensor/sonoff_tx_ultimate_touch_binary_sensor.h`.

* Bytes on the wire are `Fin 256`; wider machine integers are `Nat` with an explicit
  reduction modulo `2 ^ w` where the C++ type can wrap.
* The UART receive FIFO is the list of bytes currently available; no byte arrives while
  a polling tick runs.
* The frame buffer `buf` is the list of bytes stored into it from index 0. The source
  performs no bounds check on a store, and neither does the model: the number of bytes
  stored is kept in the result so that it can be compared with the capacity.
* A call of `publish_state` is recorded as a pair (index of the listener in
  registration order, published state).
-/

namespace sonoff_tx_ultimate

/-- A byte as received from the UART (`uint8_t`). -/
abbrev Byte := Fin 256

/-- The two properties of the compilation target the source depends on: the size of a
data pointer (`sizeof(data)` with `TouchEventData *data`) and the host byte order. -/
structure Target where
  ptr64 : Bool
  big_endian : Bool
deriving DecidableEq, Repr

/-- The value of `sizeof(T *)`: 4 on the 32-bit targets, 8 on a 64-bit host. -/
def Target.sizeof_ptr (t : Target) : Nat := if t.ptr64 then 8 else 4

/-- The 32-bit little-endian microcontrollers the component is built for. -/
def esp32 : Target := { ptr64 := false, big_endian := false }

/-- The value of `sizeof(TouchEventHeader)` (packed: 4 constant bytes and `data_len`). -/
def SIZEOF_HEADER : Nat := 5

/-- The value of `sizeof(TouchEventData)` (packed union, largest member `len_3`). -/
def SIZEOF_DATA : Nat := 3

/-- The value of `sizeof(TouchEventFooter)` (packed, one `uint16_t`). -/
def SIZEOF_FOOTER : Nat := 2

/-- The capacity of the frame buffer `buf`. -/
def TOUCH_EVENT_MAX_BYTES : Nat := SIZEOF_HEADER + SIZEOF_DATA + SIZEOF_FOOTER

/-- The only expected values of magic, version and opcode. -/
def HEADER_CONST_PREFIX : List Byte := [0xAA, 0x55, 0x1, 0x2]

def HEADER_DATA_LEN_RELEASE : Nat := 1
def HEADER_DATA_LEN_PRESS_RELEASE : Nat := 2
def HEADER_DATA_LEN_SWIPE : Nat := 3

/-- Long press / release marker bit of a channel byte. -/
def CH_RELEASE_TIMEOUT : Nat := 0x10

def CH_INVALID : Nat := 0x0
def CH_MIN : Nat := 0x1
def CH_MAX : Nat := 0xA
def CH_MULTI : Nat := 0xB
def CH_SWIPE_RIGHT : Nat := 0xC
def CH_SWIPE_LEFT : Nat := 0xD
def CH_LONG_BIT : Nat := 0x10
def CH_LONG_MIN : Nat := 0x11
def CH_LONG_MAX : Nat := 0x1A

/-! ## Checksum engine -/

/-- Modelled from the spec: one iteration of the inner loop of `crc16be` (declared in
`esphome/core/helpers.h`, absent from the sources): the 16-bit register is shifted left
by one, MSB first, and the polynomial is xored in when the bit shifted out is set. -/
def crc16be_bit (poly crc : Nat) : Nat :=
  if crc &&& 0x8000 ≠ 0 then ((crc <<< 1) % 65536) ^^^ poly else (crc <<< 1) % 65536

/-- Modelled from the spec: one iteration of the outer loop of `crc16be`: the byte is
xored into the high half of the register, followed by eight bit steps. -/
def crc16be_byte (poly crc : Nat) (b : Byte) : Nat :=
  crc16be_bit poly (crc16be_bit poly (crc16be_bit poly (crc16be_bit poly
    (crc16be_bit poly (crc16be_bit poly (crc16be_bit poly (crc16be_bit poly
      (crc ^^^ (b.val <<< 8)))))))))

/-- Modelled from the spec: `crc16be(data, len, crc, poly)` of `esphome/core/helpers.h`
(absent from the sources), without reflection and without final xor; `data` is the list
of the `len` bytes read. With `crc = 0xffff` and `poly = 0x1021` this is
CRC-16/CCITT-FALSE. -/
def crc16be (data : List Byte) (crc poly : Nat) : Nat :=
  data.foldl (crc16be_byte poly) crc

/-- Modelled from the spec: `byteswap` of `esphome/core/helpers.h` at `uint16_t`. -/
def byteswap16 (n : Nat) : Nat := (n % 256) * 256 + n / 256

/-- Modelled from the spec: `convert_big_endian` of `esphome/core/helpers.h` at
`uint16_t`: the host value whose in-memory bytes are the big-endian encoding of `v`. -/
def convert_big_endian (t : Target) (v : Nat) : Nat :=
  if t.big_endian then v else byteswap16 v

/-- Host-order load of a packed `uint16_t` from the first two bytes of `mem`
(the read of `footer->crc16`). -/
def load_u16 (t : Target) (mem : List Byte) : Nat :=
  if t.big_endian then (mem.getD 0 0).val * 256 + (mem.getD 1 0).val
  else (mem.getD 0 0).val + (mem.getD 1 0).val * 256

/-- The function `crc16_calc(header)`, with `buf` the memory starting at the header:
CRC-16/CCITT-FALSE over `sizeof(*header) - 2 + data_len` bytes starting at the version
byte, converted to big-endian memory order. -/
def crc16_calc (t : Target) (buf : List Byte) : Nat :=
  let data_len := (buf.getD 4 0).val
  let len := (SIZEOF_HEADER - 2 + data_len) % 65536
  convert_big_endian t (crc16be ((buf.drop 2).take len) 0xffff 0x1021)

/-! ## Listeners -/

/-- The fields of `SonoffTXUltimateTouchBinarySensor` read by the component. -/
structure SonoffTXUltimateTouchBinarySensor where
  channels_bitmap : Nat
  press_only : Bool
deriving DecidableEq, Repr

/-- Modelled from the spec: `press_only_get()`, called by `process_command_` and absent
from the header under src/: it returns the listener's `press_only` flag. -/
def SonoffTXUltimateTouchBinarySensor.press_only_get
    (s : SonoffTXUltimateTouchBinarySensor) : Bool := s.press_only

/-- The method `add_channel(ch)`: `channels_bitmap |= (1U << ch)`. -/
def SonoffTXUltimateTouchBinarySensor.add_channel
    (s : SonoffTXUltimateTouchBinarySensor) (ch : Nat) : SonoffTXUltimateTouchBinarySensor :=
  { s with channels_bitmap := (s.channels_bitmap ||| ((1 <<< ch) % 2 ^ 32)) % 2 ^ 32 }

/-- The method `process(ch, state)`: the list of states passed to `publish_state`,
empty when `(1U << ch) & channels_bitmap` is zero. The 32-bit shift is reduced modulo
`2 ^ 32`; the C++ shift is only defined for `ch < 32`. -/
def SonoffTXUltimateTouchBinarySensor.process
    (s : SonoffTXUltimateTouchBinarySensor) (ch : Nat) (state : Bool) : List Bool :=
  if ((1 <<< ch) % 2 ^ 32) &&& s.channels_bitmap = 0 then [] else [state]

/-! ## Component -/

/-- The struct `SonoffTXUltimate::TouchEvent`. -/
structure TouchEvent where
  state : Bool
  ch : Nat
deriving DecidableEq, Repr

/-- The component state: the UART receive FIFO of the `UARTDevice` base (bytes currently
available, oldest first), the read counter and the registered listeners. -/
structure SonoffTXUltimate where
  rx : List Byte
  read_count_ : Nat
  touch_binary_sensors_ : List SonoffTXUltimateTouchBinarySensor
deriving DecidableEq, Repr

/-- The method `register_touch_binary_sensor`: `push_back` on the listener vector. -/
def SonoffTXUltimate.register_touch_binary_sensor (st : SonoffTXUltimate)
    (s : SonoffTXUltimateTouchBinarySensor) : SonoffTXUltimate :=
  { st with touch_binary_sensors_ := st.touch_binary_sensors_ ++ [s] }

/-- Modelled from the spec: `available()` of the byte-stream transport (UART component,
absent from the sources): the number of bytes that can be read now. -/
def available (rx : List Byte) : Nat := rx.length

/-- Modelled from the spec: `read_array(data, len)` of the byte-stream transport (UART
component, absent from the sources), `read_exact(n)` in the spec: the next `len` bytes
and the remaining FIFO, or a timeout failure (`none`) when fewer than `len` bytes are
there, in which case nothing is taken from the FIFO. -/
def read_array (rx : List Byte) (len : Nat) : Option (List Byte × List Byte) :=
  if len ≤ rx.length then some (rx.take len, rx.drop len) else none

/-- The loop of `skip_command_`: `while (available()) read();` on the FIFO. -/
def skip_loop : List Byte → List Byte
  | [] => []
  | _ :: rest => skip_loop rest

/-- The method `skip_command_`: read out everything from the UART FIFO. -/
def skip_command_ (st : SonoffTXUltimate) : SonoffTXUltimate :=
  { st with rx := skip_loop st.rx }

/-- The state of `read_command_` on reaching the label `done`, before the drain:
the return value, the event, the FIFO and the bytes stored into `buf`. -/
structure ReadAttempt where
  success : Bool
  event : TouchEvent
  rx : List Byte
  buf : List Byte
deriving DecidableEq, Repr

/-- The statement `switch (header->data_len)` of `read_command_`, with `data` the
memory starting at the payload: the raw event, or `none` for the `default` branch. -/
def crunch_data (data_len : Nat) (data : List Byte) : Option TouchEvent :=
  if data_len = HEADER_DATA_LEN_RELEASE then
    some { ch := (data.getD 0 0).val, state := false }
  else if data_len = HEADER_DATA_LEN_PRESS_RELEASE then
    some { ch := (data.getD 1 0).val,
           state := if (data.getD 0 0).val ≠ 0 then false else true }
  else if data_len = HEADER_DATA_LEN_SWIPE then
    some { ch := (data.getD 0 0).val, state := false }
  else none

/-- The removal of the long press/release bit:
`if (event.ch & CH_RELEASE_TIMEOUT) event.ch &= ~CH_RELEASE_TIMEOUT;` on a `uint8_t`. -/
def strip_release_timeout (event : TouchEvent) : TouchEvent :=
  if event.ch &&& CH_RELEASE_TIMEOUT ≠ 0 then
    { event with ch := event.ch &&& (0xFF - CH_RELEASE_TIMEOUT) }
  else event

/-- The body of `read_command_` from its first statement to the labels `error` and
`done`, before `skip_command_` runs. -/
def read_command_body (t : Target) (rx : List Byte) (event : TouchEvent) : ReadAttempt :=
  match read_array rx SIZEOF_HEADER with
  | none => { success := false, event := event, rx := rx, buf := [] }
  | some (header, rx1) =>
    if header.take 4 ≠ HEADER_CONST_PREFIX then
      { success := false, event := event, rx := rx1, buf := header }
    else
      let data_len := (header.getD 4 0).val
      if data_len > t.sizeof_ptr then
        { success := false, event := event, rx := rx1, buf := header }
      else
        match read_array rx1 (data_len + SIZEOF_FOOTER) with
        | none => { success := false, event := event, rx := rx1, buf := header }
        | some (body, rx2) =>
          let buf := header ++ body
          let crc16_actual := crc16_calc t buf
          let footer_crc16 := load_u16 t (buf.drop (SIZEOF_HEADER + data_len))
          if crc16_actual ≠ footer_crc16 then
            { success := false, event := event, rx := rx2, buf := buf }
          else
            match crunch_data data_len (buf.drop SIZEOF_HEADER) with
            | none => { success := false, event := event, rx := rx2, buf := buf }
            | some ev =>
              { success := true, event := strip_release_timeout ev, rx := rx2, buf := buf }

/-- The method `read_command_(event)`: the body, then at `done` the drain and the
increment of the `unsigned int` read counter; returns `success`, the event and the new
component state. -/
def read_command_ (t : Target) (st : SonoffTXUltimate) (event : TouchEvent) :
    Bool × TouchEvent × SonoffTXUltimate :=
  let a := read_command_body t st.rx event
  let st1 := skip_command_ { st with rx := a.rx }
  (a.success, a.event, { st1 with read_count_ := (st1.read_count_ + 1) % 2 ^ 32 })

/-- The body of the loop of `process_command_` for one listener: the states published
to that listener. -/
def process_one (event : TouchEvent) (s : SonoffTXUltimateTouchBinarySensor) : List Bool :=
  if event.ch > CH_MAX ∨ (s.press_only_get = true ∧ event.state = true) then
    s.process event.ch true ++ s.process event.ch false
  else
    s.process event.ch event.state

/-- The loop `for (auto *touch_binary_sensor : touch_binary_sensors_)` from the
listener with index `i` on: the publications, each tagged with the listener's index. -/
def process_from (event : TouchEvent) :
    Nat → List SonoffTXUltimateTouchBinarySensor → List (Nat × Bool)
  | _, [] => []
  | i, s :: rest =>
    (process_one event s).map (fun b => (i, b)) ++ process_from event (i + 1) rest

/-- The method `process_command_(event)`: the publications made, in order. -/
def process_command_ (st : SonoffTXUltimate) (event : TouchEvent) : List (Nat × Bool) :=
  process_from event 0 st.touch_binary_sensors_

/-- The method `loop()`: one polling tick; returns the new component state and the
publications made. -/
def loop (t : Target) (st : SonoffTXUltimate) : SonoffTXUltimate × List (Nat × Bool) :=
  let event : TouchEvent := { state := false, ch := 0 }
  if available st.rx = 0 then (st, [])
  else
    match read_command_ t st event with
    | (false, _, st1) => (st1, [])
    | (true, ev, st1) => (st1, process_command_ st1 ev)

/-- The states published to the listener with index `i` within a publication trace. -/
def publications_to (i : Nat) (trace : List (Nat × Bool)) : List Bool :=
  (trace.filter (fun p => p.1 = i)).map (fun p => p.2)

/-- The listener's mask includes channel `ch`. -/
def SonoffTXUltimateTouchBinarySensor.has_channel
    (s : SonoffTXUltimateTouchBinarySensor) (ch : Nat) : Bool :=
  s.channels_bitmap.testBit ch

/-! ## Reference definitions, following the wording of the specification -/

/-- CRC-16/CCITT-FALSE: polynomial 0x1021, initial register 0xFFFF, MSB first, no
reflection, no final xor. -/
def crc16_ccitt_false (data : List Byte) : Nat := crc16be data 0xFFFF 0x1021

/-- The fifth byte of a byte sequence, the `data_len` field of a frame starting there. -/
def frame_data_len (rx : List Byte) : Nat := (rx.getD 4 0).val

/-- The byte sequence starts with a valid frame: the first four bytes are AA 55 01 02,
`data_len` is 1, 2 or 3, all `5 + data_len + 2` bytes are there, and the two footer
bytes, read big-endian, are the CRC-16/CCITT-FALSE of the `3 + data_len` bytes starting
at the version byte. -/
def valid_frame (rx : List Byte) : Prop :=
  rx.take 4 = [0xAA, 0x55, 0x01, 0x02] ∧
  (frame_data_len rx = 1 ∨ frame_data_len rx = 2 ∨ frame_data_len rx = 3) ∧
  7 + frame_data_len rx ≤ rx.length ∧
  (rx.getD (5 + frame_data_len rx) 0).val * 256 + (rx.getD (6 + frame_data_len rx) 0).val
    = crc16_ccitt_false ((rx.drop 2).take (3 + frame_data_len rx))

instance valid_frame_decidable (rx : List Byte) : Decidable (valid_frame rx) := by
  unfold valid_frame
  infer_instance

/-- The wire encoding of a payload: AA 55 01 02, `data_len`, the payload, and the
CRC-16/CCITT-FALSE of (01, 02, `data_len`, payload) written high byte first. -/
def encode_frame (payload : List Byte) : List Byte :=
  let covered : List Byte := [0x01, 0x02, Fin.ofNat payload.length] ++ payload
  let crc := crc16_ccitt_false covered
  [0xAA, 0x55] ++ covered ++ [Fin.ofNat (crc / 256), Fin.ofNat (crc % 256)]

/-- The byte sequence `rx` with bit `k` of the byte at index `i` flipped. -/
def flip_bit (rx : List Byte) (i k : Nat) : List Byte :=
  rx.set i (Fin.ofNat ((rx.getD i 0).val ^^^ (1 <<< k)))

/-- A byte value with bit 0x10 cleared. -/
def clear_long_bit (b : Nat) : Nat := if b.testBit 4 then b - 16 else b

/-- The payload of a frame: the `data_len` bytes after the header. -/
def frame_payload (rx : List Byte) : List Byte := (rx.drop 5).take (frame_data_len rx)

/-- The channel byte of a frame: `payload[0]` when `data_len` is 1 or 3, `payload[1]`
when `data_len` is 2. -/
def frame_channel_byte (rx : List Byte) : Nat :=
  if frame_data_len rx = 2 then ((frame_payload rx).getD 1 0).val
  else ((frame_payload rx).getD 0 0).val

/-- The reference decoding of a frame: the channel is the channel byte with bit 0x10
cleared, and the event is a press exactly when `data_len` is 2 and the release flag
`payload[0]` is zero. -/
def decode_reference (rx : List Byte) : TouchEvent :=
  { ch := clear_long_bit (frame_channel_byte rx),
    state := decide (frame_data_len rx = 2 ∧ ((frame_payload rx).getD 0 0).val = 0) }

/-- The channel byte `c` with bit 0x10, the long-hold marker, set. -/
def with_long_bit (c : Byte) : Byte := Fin.ofNat (c.val ||| 0x10)

/-- The payload with its channel byte replaced by `c`: index 1 for a two-byte payload,
index 0 otherwise. -/
def payload_with_channel (payload : List Byte) (c : Byte) : List Byte :=
  payload.set (if payload.length = 2 then 1 else 0) c

/-! ## Checksum engine: bounds and injectivity -/

theorem crc16be_bit_lt (c : Nat) : crc16be_bit 0x1021 c < 65536 := by
  unfold crc16be_bit
  split
  · exact Nat.xor_lt_two_pow (n := 16) (Nat.mod_lt _ (by norm_num)) (by norm_num)
  · exact Nat.mod_lt _ (by norm_num)

theorem crc16be_byte_lt (c : Nat) (b : Byte) : crc16be_byte 0x1021 c b < 65536 :=
  crc16be_bit_lt _

theorem crc16be_lt (data : List Byte) (c : Nat) (hc : c < 65536) :
    crc16be data c 0x1021 < 65536 := by
  unfold crc16be
  induction data generalizing c with
  | nil => simpa using hc
  | cons b rest ih => exact ih _ (crc16be_byte_lt c b)

theorem footer_check_iff (t : Target) (c : Nat) (hc : c < 65536) (f0 f1 : Byte)
    (rest : List Byte) :
    convert_big_endian t c = load_u16 t (f0 :: f1 :: rest) ↔ f0.val * 256 + f1.val = c := by
  have h0 := f0.isLt
  have h1 := f1.isLt
  cases ht : t.big_endian <;> simp [convert_big_endian, load_u16, byteswap16, ht] <;> omega


theorem crunch_data_none (dl : Nat) (d : List Byte) (h1 : dl ≠ 1) (h2 : dl ≠ 2) (h3 : dl ≠ 3) :
    crunch_data dl d = none := by
  simp [crunch_data, HEADER_DATA_LEN_RELEASE, HEADER_DATA_LEN_PRESS_RELEASE,
    HEADER_DATA_LEN_SWIPE, h1, h2, h3]

theorem sizeof_ptr_ge (t : Target) : 4 ≤ t.sizeof_ptr := by
  unfold Target.sizeof_ptr; split <;> omega




theorem body_len1 (t : Target) (ev : TouchEvent) (p0 f0 f1 : Byte) (rest : List Byte) :
    read_command_body t (0xAA :: 0x55 :: 1 :: 2 :: 1 :: p0 :: f0 :: f1 :: rest) ev =
      if f0.val * 256 + f1.val = crc16_ccitt_false [1, 2, 1, p0] then
        { success := true, event := strip_release_timeout { state := false, ch := p0.val },
          rx := rest, buf := [0xAA, 0x55, 1, 2, 1, p0, f0, f1] }
      else
        { success := false, event := ev, rx := rest,
          buf := [0xAA, 0x55, 1, 2, 1, p0, f0, f1] } := by
  have hs := sizeof_ptr_ge t
  have hf := footer_check_iff t _ (crc16be_lt [1, 2, 1, p0] 0xffff (by norm_num)) f0 f1 []
  simp [read_command_body, read_array, SIZEOF_HEADER, HEADER_CONST_PREFIX, SIZEOF_FOOTER,
    crc16_calc, crunch_data, HEADER_DATA_LEN_RELEASE, hf, crc16_ccitt_false,
    show t.sizeof_ptr ≠ 0 by omega]

theorem body_len2 (t : Target) (ev : TouchEvent) (p0 p1 f0 f1 : Byte) (rest : List Byte) :
    read_command_body t (0xAA :: 0x55 :: 1 :: 2 :: 2 :: p0 :: p1 :: f0 :: f1 :: rest) ev =
      if f0.val * 256 + f1.val = crc16_ccitt_false [1, 2, 2, p0, p1] then
        { success := true,
          event := strip_release_timeout
            { state := if p0.val ≠ 0 then false else true, ch := p1.val },
          rx := rest, buf := [0xAA, 0x55, 1, 2, 2, p0, p1, f0, f1] }
      else
        { success := false, event := ev, rx := rest,
          buf := [0xAA, 0x55, 1, 2, 2, p0, p1, f0, f1] } := by
  have hs := sizeof_ptr_ge t
  have hf := footer_check_iff t _ (crc16be_lt [1, 2, 2, p0, p1] 0xffff (by norm_num)) f0 f1 []
  simp [read_command_body, read_array, SIZEOF_HEADER, HEADER_CONST_PREFIX, SIZEOF_FOOTER,
    crc16_calc, crunch_data, HEADER_DATA_LEN_RELEASE, HEADER_DATA_LEN_PRESS_RELEASE, hf,
    crc16_ccitt_false, show ¬ (t.sizeof_ptr < 2) by omega]

theorem body_len3 (t : Target) (ev : TouchEvent) (p0 p1 p2 f0 f1 : Byte) (rest : List Byte) :
    read_command_body t (0xAA :: 0x55 :: 1 :: 2 :: 3 :: p0 :: p1 :: p2 :: f0 :: f1 :: rest) ev =
      if f0.val * 256 + f1.val = crc16_ccitt_false [1, 2, 3, p0, p1, p2] then
        { success := true, event := strip_release_timeout { state := false, ch := p0.val },
          rx := rest, buf := [0xAA, 0x55, 1, 2, 3, p0, p1, p2, f0, f1] }
      else
        { success := false, event := ev, rx := rest,
          buf := [0xAA, 0x55, 1, 2, 3, p0, p1, p2, f0, f1] } := by
  have hs := sizeof_ptr_ge t
  have hf := footer_check_iff t _ (crc16be_lt [1, 2, 3, p0, p1, p2] 0xffff (by norm_num)) f0 f1 []
  simp [read_command_body, read_array, SIZEOF_HEADER, HEADER_CONST_PREFIX, SIZEOF_FOOTER,
    crc16_calc, crunch_data, HEADER_DATA_LEN_RELEASE, HEADER_DATA_LEN_PRESS_RELEASE,
    HEADER_DATA_LEN_SWIPE, hf, crc16_ccitt_false, show ¬ (t.sizeof_ptr < 3) by omega,
    show ((3 : Fin 256) : Nat) = 3 from rfl]


theorem body_bad_len (t : Target) (ev : TouchEvent) (b0 b1 b2 b3 b4 : Byte) (rest : List Byte)
    (h1 : b4.val ≠ 1) (h2 : b4.val ≠ 2) (h3 : b4.val ≠ 3) :
    (read_command_body t (b0 :: b1 :: b2 :: b3 :: b4 :: rest) ev).success = false := by
  simp only [read_command_body, read_array, SIZEOF_HEADER]
  simp only [List.length_cons, Nat.le_add_left, ↓reduceIte, List.take, List.drop,
    List.getD_cons_succ, List.getD_cons_zero]
  split
  · rfl
  · split
    · rfl
    · split
      · rfl
      · split
        · rfl
        · rw [crunch_data_none _ _ h1 h2 h3]


theorem body_bad_magic (t : Target) (ev : TouchEvent) (b0 b1 b2 b3 b4 : Byte)
    (rest : List Byte) (hp : [b0, b1, b2, b3] ≠ HEADER_CONST_PREFIX) :
    read_command_body t (b0 :: b1 :: b2 :: b3 :: b4 :: rest) ev =
      { success := false, event := ev, rx := rest, buf := [b0, b1, b2, b3, b4] } := by
  simp [read_command_body, read_array, SIZEOF_HEADER, hp]

theorem body_short_header (t : Target) (ev : TouchEvent) (rx : List Byte)
    (h : rx.length < 5) :
    read_command_body t rx ev = { success := false, event := ev, rx := rx, buf := [] } := by
  have h5 : ¬ 5 ≤ rx.length := by omega
  simp [read_command_body, read_array, SIZEOF_HEADER, h5]

theorem fin3_val : ((3 : Fin 256) : Nat) = 3 := rfl

theorem body_short_body (t : Target) (ev : TouchEvent) (b4 : Byte) (rest : List Byte)
    (h : rest.length < b4.val + 2) :
    read_command_body t (0xAA :: 0x55 :: 1 :: 2 :: b4 :: rest) ev =
      { success := false, event := ev, rx := rest, buf := [0xAA, 0x55, 1, 2, b4] } := by
  have h2 : ¬ b4.val + 2 ≤ rest.length := by omega
  simp only [read_command_body, read_array, SIZEOF_HEADER, SIZEOF_FOOTER]
  simp only [List.length_cons, Nat.le_add_left, ↓reduceIte, List.take, List.drop,
    List.getD_cons_succ, List.getD_cons_zero, h2]
  split
  · rfl
  · split <;> rfl

theorem body_success_shape (t : Target) (rx : List Byte) (ev : TouchEvent)
    (h : (read_command_body t rx ev).success = true) :
    (∃ p0 f0 f1 rest, rx = 0xAA :: 0x55 :: 1 :: 2 :: 1 :: p0 :: f0 :: f1 :: rest ∧
        f0.val * 256 + f1.val = crc16_ccitt_false [1, 2, 1, p0]) ∨
    (∃ p0 p1 f0 f1 rest, rx = 0xAA :: 0x55 :: 1 :: 2 :: 2 :: p0 :: p1 :: f0 :: f1 :: rest ∧
        f0.val * 256 + f1.val = crc16_ccitt_false [1, 2, 2, p0, p1]) ∨
    (∃ p0 p1 p2 f0 f1 rest,
        rx = 0xAA :: 0x55 :: 1 :: 2 :: 3 :: p0 :: p1 :: p2 :: f0 :: f1 :: rest ∧
        f0.val * 256 + f1.val = crc16_ccitt_false [1, 2, 3, p0, p1, p2]) := by
  rcases rx with _ | ⟨b0, _ | ⟨b1, _ | ⟨b2, _ | ⟨b3, _ | ⟨b4, rest⟩⟩⟩⟩⟩
  · simp [body_short_header] at h
  · simp [body_short_header] at h
  · simp [body_short_header] at h
  · simp [body_short_header] at h
  · simp [body_short_header] at h
  by_cases hp : [b0, b1, b2, b3] = HEADER_CONST_PREFIX
  swap
  · simp [body_bad_magic t ev b0 b1 b2 b3 b4 rest hp] at h
  simp only [HEADER_CONST_PREFIX, List.cons.injEq, and_true] at hp
  obtain ⟨rfl, rfl, rfl, rfl⟩ := hp
  by_cases h1 : b4.val = 1
  · obtain rfl : b4 = 1 := Fin.ext h1
    rcases rest with _ | ⟨p0, _ | ⟨f0, _ | ⟨f1, rest⟩⟩⟩
    · simp [body_short_body, fin3_val] at h
    · simp [body_short_body, fin3_val] at h
    · simp [body_short_body, fin3_val] at h
    rw [body_len1] at h
    split at h
    · next hc => exact Or.inl ⟨p0, f0, f1, rest, rfl, hc⟩
    · simp at h
  by_cases h2 : b4.val = 2
  · obtain rfl : b4 = 2 := Fin.ext h2
    rcases rest with _ | ⟨p0, _ | ⟨p1, _ | ⟨f0, _ | ⟨f1, rest⟩⟩⟩⟩
    · simp [body_short_body, fin3_val] at h
    · simp [body_short_body, fin3_val] at h
    · simp [body_short_body, fin3_val] at h
    · simp [body_short_body, fin3_val] at h
    rw [body_len2] at h
    split at h
    · next hc => exact Or.inr (Or.inl ⟨p0, p1, f0, f1, rest, rfl, hc⟩)
    · simp at h
  by_cases h3 : b4.val = 3
  · obtain rfl : b4 = 3 := Fin.ext h3
    rcases rest with _ | ⟨p0, _ | ⟨p1, _ | ⟨p2, _ | ⟨f0, _ | ⟨f1, rest⟩⟩⟩⟩⟩
    · simp [body_short_body, fin3_val] at h
    · simp [body_short_body, fin3_val] at h
    · simp [body_short_body, fin3_val] at h
    · simp [body_short_body, fin3_val] at h
    · simp [body_short_body, fin3_val] at h
    rw [body_len3] at h
    split at h
    · next hc => exact Or.inr (Or.inr ⟨p0, p1, p2, f0, f1, rest, rfl, hc⟩)
    · simp at h
  rw [body_bad_len t ev _ _ _ _ b4 rest h1 h2 h3] at h
  exact absurd h (by simp)

theorem and_two_pow_eq_zero_iff (n i : Nat) : n &&& 2 ^ i = 0 ↔ n / 2 ^ i % 2 = 0 := by
  rw [Nat.and_two_pow, Nat.testBit_to_div_mod]
  have hp : 0 < 2 ^ i := Nat.two_pow_pos i
  by_cases h : n / 2 ^ i % 2 = 1
  · simp [h]
  · have h0 : n / 2 ^ i % 2 = 0 := by omega
    simp [h0]

theorem crc16be_bit_eq (c : Nat) (hc : c < 65536) :
    crc16be_bit 0x1021 c =
      if 32768 ≤ c then (2 * (c - 32768)) ^^^ 0x1021 else 2 * c := by
  have h := and_two_pow_eq_zero_iff c 15
  norm_num at h
  unfold crc16be_bit
  rw [Nat.shiftLeft_eq]
  by_cases h1 : 32768 ≤ c
  · have : ¬ (c &&& 0x8000 = 0) := by rw [h]; omega
    have e : c * 2 ^ 1 % 65536 = 2 * (c - 32768) := by omega
    rw [if_pos this, if_pos h1, e]
  · have : c &&& 0x8000 = 0 := by rw [h]; omega
    have e : c * 2 ^ 1 % 65536 = 2 * c := by omega
    rw [if_neg (not_not.mpr this), if_neg h1, e]

theorem crc16be_bit_inj (a b : Nat) (ha : a < 65536) (hb : b < 65536)
    (h : crc16be_bit 0x1021 a = crc16be_bit 0x1021 b) : a = b := by
  rw [crc16be_bit_eq a ha, crc16be_bit_eq b hb] at h
  have hodd : ∀ x, ((2 * x) ^^^ 0x1021) % 2 = 1 := by
    intro x
    rw [Nat.xor_mod_two_eq]; omega
  by_cases h1 : 32768 ≤ a <;> by_cases h2 : 32768 ≤ b
  · rw [if_pos h1, if_pos h2] at h
    have := Nat.xor_left_injective h
    omega
  · rw [if_pos h1, if_neg h2] at h
    have := hodd (a - 32768)
    omega
  · rw [if_neg h1, if_pos h2] at h
    have := hodd (b - 32768)
    omega
  · rw [if_neg h1, if_neg h2] at h
    omega


theorem crc16be_byte_inj_state (a b : Nat) (x : Byte) (ha : a < 65536) (hb : b < 65536)
    (h : crc16be_byte 0x1021 a x = crc16be_byte 0x1021 b x) : a = b := by
  have hx : x.val <<< 8 < 2 ^ 16 := by
    have := x.isLt
    rw [Nat.shiftLeft_eq]; omega
  have ha2 : a ^^^ (x.val <<< 8) < 65536 := Nat.xor_lt_two_pow (n := 16) ha hx
  have hb2 : b ^^^ (x.val <<< 8) < 65536 := Nat.xor_lt_two_pow (n := 16) hb hx
  unfold crc16be_byte at h
  have e := crc16be_bit_inj _ _ ha2 hb2
    (crc16be_bit_inj _ _ (crc16be_bit_lt _) (crc16be_bit_lt _)
    (crc16be_bit_inj _ _ (crc16be_bit_lt _) (crc16be_bit_lt _)
    (crc16be_bit_inj _ _ (crc16be_bit_lt _) (crc16be_bit_lt _)
    (crc16be_bit_inj _ _ (crc16be_bit_lt _) (crc16be_bit_lt _)
    (crc16be_bit_inj _ _ (crc16be_bit_lt _) (crc16be_bit_lt _)
    (crc16be_bit_inj _ _ (crc16be_bit_lt _) (crc16be_bit_lt _)
    (crc16be_bit_inj _ _ (crc16be_bit_lt _) (crc16be_bit_lt _) h)))))))
  exact Nat.xor_left_injective e

theorem crc16be_byte_inj_byte (c : Nat) (x y : Byte) (hc : c < 65536)
    (h : crc16be_byte 0x1021 c x = crc16be_byte 0x1021 c y) : x = y := by
  have hx : x.val <<< 8 < 2 ^ 16 := by
    have := x.isLt
    rw [Nat.shiftLeft_eq]; omega
  have hy : y.val <<< 8 < 2 ^ 16 := by
    have := y.isLt
    rw [Nat.shiftLeft_eq]; omega
  have ha2 : c ^^^ (x.val <<< 8) < 65536 := Nat.xor_lt_two_pow (n := 16) hc hx
  have hb2 : c ^^^ (y.val <<< 8) < 65536 := Nat.xor_lt_two_pow (n := 16) hc hy
  unfold crc16be_byte at h
  have e := crc16be_bit_inj _ _ ha2 hb2
    (crc16be_bit_inj _ _ (crc16be_bit_lt _) (crc16be_bit_lt _)
    (crc16be_bit_inj _ _ (crc16be_bit_lt _) (crc16be_bit_lt _)
    (crc16be_bit_inj _ _ (crc16be_bit_lt _) (crc16be_bit_lt _)
    (crc16be_bit_inj _ _ (crc16be_bit_lt _) (crc16be_bit_lt _)
    (crc16be_bit_inj _ _ (crc16be_bit_lt _) (crc16be_bit_lt _)
    (crc16be_bit_inj _ _ (crc16be_bit_lt _) (crc16be_bit_lt _)
    (crc16be_bit_inj _ _ (crc16be_bit_lt _) (crc16be_bit_lt _) h)))))))
  have e2 := Nat.xor_right_injective e
  rw [Nat.shiftLeft_eq, Nat.shiftLeft_eq] at e2
  exact Fin.ext (by omega)

theorem crc16be_inj_state (data : List Byte) (a b : Nat) (ha : a < 65536) (hb : b < 65536)
    (h : crc16be data a 0x1021 = crc16be data b 0x1021) : a = b := by
  unfold crc16be at h
  induction data generalizing a b with
  | nil => simpa using h
  | cons x rest ih =>
    exact crc16be_byte_inj_state a b x ha hb
      (ih _ _ (crc16be_bit_lt _) (crc16be_bit_lt _) h)

theorem crc16be_append (xs ys : List Byte) (c p : Nat) :
    crc16be (xs ++ ys) c p = crc16be ys (crc16be xs c p) p := by
  simp [crc16be, List.foldl_append]

/-- Changing exactly one byte of a message changes its CRC-16/CCITT-FALSE. -/
theorem crc16be_one_byte_change (pre suf : List Byte) (x y : Byte) (c : Nat) (hc : c < 65536)
    (hxy : x ≠ y) :
    crc16be (pre ++ x :: suf) c 0x1021 ≠ crc16be (pre ++ y :: suf) c 0x1021 := by
  intro h
  rw [crc16be_append, crc16be_append] at h
  have hp := crc16be_lt pre c hc
  have h1 : ∀ z : Byte, crc16be (z :: suf) (crc16be pre c 0x1021) 0x1021
      = crc16be suf (crc16be_byte 0x1021 (crc16be pre c 0x1021) z) 0x1021 := fun _ => rfl
  rw [h1, h1] at h
  exact hxy (crc16be_byte_inj_byte _ x y hp
    (crc16be_inj_state suf _ _ (crc16be_bit_lt _) (crc16be_bit_lt _) h))

/-! ## Sanity checks of the modelled parts -/

set_option maxRecDepth 100000 in
/-- The standard check value of CRC-16/CCITT-FALSE: the CRC of the ASCII string
"123456789" is 0x29B1. -/
theorem crc16_ccitt_false_check_value :
    crc16_ccitt_false [0x31, 0x32, 0x33, 0x34, 0x35, 0x36, 0x37, 0x38, 0x39] = 0x29B1 := by
  decide

/-- After `add_channel(ch)` with `ch < 32` the mask includes `ch`. -/
theorem add_channel_has_channel (s : SonoffTXUltimateTouchBinarySensor) (ch : Nat)
    (h : ch < 32) : (s.add_channel ch).has_channel ch = true := by
  unfold SonoffTXUltimateTouchBinarySensor.add_channel
    SonoffTXUltimateTouchBinarySensor.has_channel
  have hlt : 2 ^ ch < 2 ^ 32 := Nat.pow_lt_pow_right (by norm_num) h
  simp only [Nat.one_shiftLeft, Nat.mod_eq_of_lt hlt, Nat.testBit_mod_two_pow, Nat.testBit_or,
    Nat.testBit_two_pow_self, Bool.or_true, Bool.and_true, decide_eq_true_eq]
  exact h

/-! ## The frame reader -/

theorem read_command_success (t : Target) (st : SonoffTXUltimate) (ev : TouchEvent) :
    (read_command_ t st ev).1 = (read_command_body t st.rx ev).success := rfl

theorem read_command_event (t : Target) (st : SonoffTXUltimate) (ev : TouchEvent) :
    (read_command_ t st ev).2.1 = (read_command_body t st.rx ev).event := rfl

theorem loop_trace (t : Target) (st : SonoffTXUltimate) :
    (loop t st).2 =
      if st.rx.length = 0 then []
      else if (read_command_body t st.rx { state := false, ch := 0 }).success = true then
        process_from (read_command_body t st.rx { state := false, ch := 0 }).event 0
          st.touch_binary_sensors_
      else [] := by
  unfold loop available
  split
  · rfl
  · simp only [read_command_]
    cases h : (read_command_body t st.rx { state := false, ch := 0 }).success
    · simp
    · simp [process_command_, skip_command_]

theorem valid_frame_of_success (t : Target) (rx : List Byte) (ev : TouchEvent)
    (h : (read_command_body t rx ev).success = true) : valid_frame rx := by
  rcases body_success_shape t rx ev h with
    ⟨p0, f0, f1, rest, rfl, hc⟩ | ⟨p0, p1, f0, f1, rest, rfl, hc⟩ |
    ⟨p0, p1, p2, f0, f1, rest, rfl, hc⟩
  · simpa [valid_frame, frame_data_len] using hc
  · simpa [valid_frame, frame_data_len] using hc
  · simpa [valid_frame, frame_data_len, fin3_val] using hc

/-- C1: whenever `read_command_` returns success, or a polling tick (`loop`) makes at
least one publication, the bytes on the transport start with a valid frame: the first
four bytes are AA 55 01 02, `data_len` is 1, 2 or 3, and the two footer bytes read
big-endian are the CRC-16/CCITT-FALSE of the `3 + data_len` bytes starting at the
version byte. -/
theorem read_command_accepts_only_valid_frames (t : Target) (st : SonoffTXUltimate)
    (ev : TouchEvent)
    (h : (read_command_ t st ev).1 = true ∨ (loop t st).2 ≠ []) :
    valid_frame st.rx := by
  rcases h with h | h
  · exact valid_frame_of_success t st.rx ev h
  · rw [loop_trace] at h
    split at h
    · exact absurd rfl h
    · split at h
      · next hs => exact valid_frame_of_success t st.rx _ hs
      · exact absurd rfl h

set_option maxRecDepth 100000 in
theorem read_command_accepts_only_valid_frames_witness :
    (read_command_ esp32
        { rx := [0xAA, 0x55, 0x01, 0x02, 0x01, 0x05, 0xFF, 0x80], read_count_ := 0,
          touch_binary_sensors_ := [] }
        { state := false, ch := 0 }).1 = true ∧
      valid_frame [0xAA, 0x55, 0x01, 0x02, 0x01, 0x05, 0xFF, 0x80] :=
  ⟨by decide,
   read_command_accepts_only_valid_frames esp32
    { rx := [0xAA, 0x55, 0x01, 0x02, 0x01, 0x05, 0xFF, 0x80], read_count_ := 0,
      touch_binary_sensors_ := [] }
    { state := false, ch := 0 } (Or.inl (by decide))⟩

theorem fin_ofNat_val (n : Nat) : ((Fin.ofNat n : Fin 256) : Nat) = n % 256 := rfl

theorem crc_bytes_roundtrip (c : Nat) (hc : c < 65536) :
    ((Fin.ofNat (c / 256) : Fin 256) : Nat) * 256 + ((Fin.ofNat (c % 256) : Fin 256) : Nat) = c := by
  rw [fin_ofNat_val, fin_ofNat_val]
  omega

theorem crc16_ccitt_false_lt (data : List Byte) : crc16_ccitt_false data < 65536 :=
  crc16be_lt data 0xFFFF (by norm_num)

/-- C2: round trip: for every payload of 1, 2 or 3 bytes, the frame AA 55 01 02
`data_len` payload followed by the CRC-16/CCITT-FALSE of (01, 02, `data_len`, payload),
high byte first, is accepted by `read_command_` when all of its bytes are available on
the transport (whatever bytes follow it). -/
theorem read_command_accepts_encoded_frame (t : Target) (st : SonoffTXUltimate)
    (ev : TouchEvent) (payload rest : List Byte)
    (h1 : 1 ≤ payload.length) (h3 : payload.length ≤ 3) :
    (read_command_ t { st with rx := encode_frame payload ++ rest } ev).1 = true := by
  rw [read_command_success]
  rcases payload with _ | ⟨p0, _ | ⟨p1, _ | ⟨p2, _ | ⟨p3, more⟩⟩⟩⟩
  · simp at h1
  · have e : encode_frame [p0] ++ rest = 0xAA :: 0x55 :: 1 :: 2 :: 1 :: p0 ::
        Fin.ofNat (crc16_ccitt_false [1, 2, 1, p0] / 256) ::
        Fin.ofNat (crc16_ccitt_false [1, 2, 1, p0] % 256) :: rest := rfl
    simp only [e, body_len1, crc_bytes_roundtrip _ (crc16_ccitt_false_lt _), if_true]
  · have e : encode_frame [p0, p1] ++ rest = 0xAA :: 0x55 :: 1 :: 2 :: 2 :: p0 :: p1 ::
        Fin.ofNat (crc16_ccitt_false [1, 2, 2, p0, p1] / 256) ::
        Fin.ofNat (crc16_ccitt_false [1, 2, 2, p0, p1] % 256) :: rest := rfl
    simp only [e, body_len2, crc_bytes_roundtrip _ (crc16_ccitt_false_lt _), if_true]
  · have e : encode_frame [p0, p1, p2] ++ rest = 0xAA :: 0x55 :: 1 :: 2 :: 3 :: p0 :: p1 :: p2 ::
        Fin.ofNat (crc16_ccitt_false [1, 2, 3, p0, p1, p2] / 256) ::
        Fin.ofNat (crc16_ccitt_false [1, 2, 3, p0, p1, p2] % 256) :: rest := rfl
    simp only [e, body_len3, crc_bytes_roundtrip _ (crc16_ccitt_false_lt _), if_true]
  · simp at h3

theorem read_command_accepts_encoded_frame_witness :
    (1 ≤ ([0x00, 0x05] : List Byte).length ∧ ([0x00, 0x05] : List Byte).length ≤ 3) ∧
    (read_command_ esp32
      { rx := encode_frame [0x00, 0x05] ++ [], read_count_ := 0, touch_binary_sensors_ := [] }
      { state := false, ch := 0 }).1 = true :=
  ⟨by decide,
   read_command_accepts_encoded_frame esp32
    { rx := [], read_count_ := 0, touch_binary_sensors_ := [] }
    { state := false, ch := 0 } [0x00, 0x05] [] (by decide) (by decide)⟩


theorem flip_byte_ne (p : Byte) (k : Nat) (hk : k < 8) :
    (Fin.ofNat (p.val ^^^ (1 <<< k)) : Fin 256) ≠ p := by
  intro h
  have hv := congrArg Fin.val h
  rw [fin_ofNat_val] at hv
  have h2 : (1 : Nat) <<< k < 2 ^ 8 := by
    rw [Nat.one_shiftLeft]
    exact Nat.pow_lt_pow_right (by norm_num) hk
  have hlt : p.val ^^^ (1 <<< k) < 256 := Nat.xor_lt_two_pow (n := 8) p.isLt h2
  rw [Nat.mod_eq_of_lt hlt] at hv
  have h0 : p.val ^^^ (1 <<< k) = p.val ^^^ 0 := by simpa using hv
  have := Nat.xor_right_injective h0
  rw [Nat.one_shiftLeft] at this
  exact absurd this (Nat.two_pow_pos k).ne'

theorem crc_change (pre suf : List Byte) (x y : Byte) (hxy : y ≠ x) (n : Nat)
    (hc : n = crc16_ccitt_false (pre ++ x :: suf)) :
    n ≠ crc16_ccitt_false (pre ++ y :: suf) := by
  rw [hc]
  exact crc16be_one_byte_change pre suf x y 0xFFFF (by norm_num) (Ne.symm hxy)

/-- C3: for every frame that `read_command_` accepts, flipping any single bit of one of
its payload bytes, header and footer unchanged, yields a frame that `read_command_`
rejects, and the only validity condition it breaks is the checksum: the recomputed
CRC-16/CCITT-FALSE no longer equals the footer. -/
theorem read_command_rejects_payload_bit_flip (t : Target) (st : SonoffTXUltimate)
    (ev : TouchEvent) (rx : List Byte) (i k : Nat)
    (hacc : (read_command_ t { st with rx := rx } ev).1 = true)
    (hlo : 5 ≤ i) (hhi : i < 5 + frame_data_len rx) (hk : k < 8) :
    (read_command_ t { st with rx := flip_bit rx i k } ev).1 = false ∧
    (flip_bit rx i k).take 5 = rx.take 5 ∧
    (flip_bit rx i k).length = rx.length ∧
    ((flip_bit rx i k).getD (5 + frame_data_len rx) 0).val * 256
        + ((flip_bit rx i k).getD (6 + frame_data_len rx) 0).val
      ≠ crc16_ccitt_false (((flip_bit rx i k).drop 2).take (3 + frame_data_len rx)) := by
  rw [read_command_success] at hacc ⊢
  rcases body_success_shape t rx ev hacc with
    ⟨p0, f0, f1, rest, rfl, hc⟩ | ⟨p0, p1, f0, f1, rest, rfl, hc⟩ |
    ⟨p0, p1, p2, f0, f1, rest, rfl, hc⟩
  · simp only [frame_data_len, List.getD_cons_succ, List.getD_cons_zero, Fin.val_one] at hhi ⊢
    obtain rfl : i = 5 := by omega
    have hn : f0.val * 256 + f1.val
        ≠ crc16_ccitt_false [1, 2, 1, Fin.ofNat (p0.val ^^^ (1 <<< k))] :=
      crc_change [1, 2, 1] [] p0 _ (flip_byte_ne p0 k hk) _ hc
    have e : flip_bit (0xAA :: 0x55 :: 1 :: 2 :: 1 :: p0 :: f0 :: f1 :: rest) 5 k =
        0xAA :: 0x55 :: 1 :: 2 :: 1 :: Fin.ofNat (p0.val ^^^ (1 <<< k)) :: f0 :: f1 :: rest := rfl
    rw [e, body_len1, if_neg hn]
    exact ⟨rfl, rfl, rfl, hn⟩
  · simp only [frame_data_len, List.getD_cons_succ, List.getD_cons_zero, Fin.val_two] at hhi ⊢
    obtain rfl | rfl : i = 5 ∨ i = 6 := by omega
    · have hn : f0.val * 256 + f1.val
          ≠ crc16_ccitt_false [1, 2, 2, Fin.ofNat (p0.val ^^^ (1 <<< k)), p1] :=
        crc_change [1, 2, 2] [p1] p0 _ (flip_byte_ne p0 k hk) _ hc
      have e : flip_bit (0xAA :: 0x55 :: 1 :: 2 :: 2 :: p0 :: p1 :: f0 :: f1 :: rest) 5 k =
          0xAA :: 0x55 :: 1 :: 2 :: 2 :: Fin.ofNat (p0.val ^^^ (1 <<< k)) :: p1 :: f0 :: f1 ::
            rest := rfl
      rw [e, body_len2, if_neg hn]
      exact ⟨rfl, rfl, rfl, hn⟩
    · have hn : f0.val * 256 + f1.val
          ≠ crc16_ccitt_false [1, 2, 2, p0, Fin.ofNat (p1.val ^^^ (1 <<< k))] :=
        crc_change [1, 2, 2, p0] [] p1 _ (flip_byte_ne p1 k hk) _ hc
      have e : flip_bit (0xAA :: 0x55 :: 1 :: 2 :: 2 :: p0 :: p1 :: f0 :: f1 :: rest) 6 k =
          0xAA :: 0x55 :: 1 :: 2 :: 2 :: p0 :: Fin.ofNat (p1.val ^^^ (1 <<< k)) :: f0 :: f1 ::
            rest := rfl
      rw [e, body_len2, if_neg hn]
      exact ⟨rfl, rfl, rfl, hn⟩
  · simp only [frame_data_len, List.getD_cons_succ, List.getD_cons_zero, fin3_val] at hhi ⊢
    obtain rfl | rfl | rfl : i = 5 ∨ i = 6 ∨ i = 7 := by omega
    · have hn : f0.val * 256 + f1.val
          ≠ crc16_ccitt_false [1, 2, 3, Fin.ofNat (p0.val ^^^ (1 <<< k)), p1, p2] :=
        crc_change [1, 2, 3] [p1, p2] p0 _ (flip_byte_ne p0 k hk) _ hc
      have e : flip_bit (0xAA :: 0x55 :: 1 :: 2 :: 3 :: p0 :: p1 :: p2 :: f0 :: f1 :: rest) 5 k =
          0xAA :: 0x55 :: 1 :: 2 :: 3 :: Fin.ofNat (p0.val ^^^ (1 <<< k)) :: p1 :: p2 :: f0 ::
            f1 :: rest := rfl
      rw [e, body_len3, if_neg hn]
      exact ⟨rfl, rfl, rfl, hn⟩
    · have hn : f0.val * 256 + f1.val
          ≠ crc16_ccitt_false [1, 2, 3, p0, Fin.ofNat (p1.val ^^^ (1 <<< k)), p2] :=
        crc_change [1, 2, 3, p0] [p2] p1 _ (flip_byte_ne p1 k hk) _ hc
      have e : flip_bit (0xAA :: 0x55 :: 1 :: 2 :: 3 :: p0 :: p1 :: p2 :: f0 :: f1 :: rest) 6 k =
          0xAA :: 0x55 :: 1 :: 2 :: 3 :: p0 :: Fin.ofNat (p1.val ^^^ (1 <<< k)) :: p2 :: f0 ::
            f1 :: rest := rfl
      rw [e, body_len3, if_neg hn]
      exact ⟨rfl, rfl, rfl, hn⟩
    · have hn : f0.val * 256 + f1.val
          ≠ crc16_ccitt_false [1, 2, 3, p0, p1, Fin.ofNat (p2.val ^^^ (1 <<< k))] :=
        crc_change [1, 2, 3, p0, p1] [] p2 _ (flip_byte_ne p2 k hk) _ hc
      have e : flip_bit (0xAA :: 0x55 :: 1 :: 2 :: 3 :: p0 :: p1 :: p2 :: f0 :: f1 :: rest) 7 k =
          0xAA :: 0x55 :: 1 :: 2 :: 3 :: p0 :: p1 :: Fin.ofNat (p2.val ^^^ (1 <<< k)) :: f0 ::
            f1 :: rest := rfl
      rw [e, body_len3, if_neg hn]
      exact ⟨rfl, rfl, rfl, hn⟩

set_option maxRecDepth 100000 in
theorem read_command_rejects_payload_bit_flip_witness :
    ((read_command_ esp32
        { rx := [0xAA, 0x55, 0x01, 0x02, 0x01, 0x05, 0xFF, 0x80], read_count_ := 0,
          touch_binary_sensors_ := [] }
        { state := false, ch := 0 }).1 = true ∧
      5 ≤ 5 ∧ 5 < 5 + frame_data_len [0xAA, 0x55, 0x01, 0x02, 0x01, 0x05, 0xFF, 0x80] ∧ 2 < 8) ∧
    (read_command_ esp32
        { rx := flip_bit [0xAA, 0x55, 0x01, 0x02, 0x01, 0x05, 0xFF, 0x80] 5 2, read_count_ := 0,
          touch_binary_sensors_ := [] }
        { state := false, ch := 0 }).1 = false :=
  ⟨by decide,
   (read_command_rejects_payload_bit_flip esp32
      { rx := [], read_count_ := 0, touch_binary_sensors_ := [] }
      { state := false, ch := 0 } [0xAA, 0x55, 0x01, 0x02, 0x01, 0x05, 0xFF, 0x80] 5 2
      (by decide) (by decide) (by decide) (by decide)).1⟩

/-! ## Length check -/

theorem body_len0 (t : Target) (ev : TouchEvent) (f0 f1 : Byte) (rest : List Byte) :
    read_command_body t (0xAA :: 0x55 :: 1 :: 2 :: 0 :: f0 :: f1 :: rest) ev =
      { success := false, event := ev, rx := rest, buf := [0xAA, 0x55, 1, 2, 0, f0, f1] } := by
  simp only [read_command_body, read_array, SIZEOF_HEADER, SIZEOF_FOOTER]
  simp only [List.length_cons, Nat.le_add_left, ↓reduceIte, List.take, List.drop,
    List.getD_cons_succ, List.getD_cons_zero, Fin.val_zero, Nat.zero_add]
  simp [crunch_data, HEADER_DATA_LEN_RELEASE, HEADER_DATA_LEN_PRESS_RELEASE,
    HEADER_DATA_LEN_SWIPE, HEADER_CONST_PREFIX]

theorem body_len_too_big (t : Target) (ev : TouchEvent) (b4 : Byte) (rest : List Byte)
    (h : t.sizeof_ptr < b4.val) :
    read_command_body t (0xAA :: 0x55 :: 1 :: 2 :: b4 :: rest) ev =
      { success := false, event := ev, rx := rest, buf := [0xAA, 0x55, 1, 2, b4] } := by
  simp [read_command_body, read_array, SIZEOF_HEADER, HEADER_CONST_PREFIX, h]

set_option maxRecDepth 100000 in
/-- C4, counterexample: with `data_len = 0` the reader takes the two footer bytes from
the transport before it fails, and with `data_len = 4` on a 32-bit target it takes
six more bytes: in both cases more than the five header bytes are consumed before the
drain. -/
theorem bad_length_reads_beyond_header :
    ((read_command_body esp32 [0xAA, 0x55, 0x01, 0x02, 0x00, 0x07, 0x08, 0x09]
        { state := false, ch := 0 }).success = false ∧
      (read_command_body esp32 [0xAA, 0x55, 0x01, 0x02, 0x00, 0x07, 0x08, 0x09]
        { state := false, ch := 0 }).rx = [0x09] ∧
      (read_command_body esp32 [0xAA, 0x55, 0x01, 0x02, 0x00, 0x07, 0x08, 0x09]
        { state := false, ch := 0 }).rx
        ≠ List.drop 5 [0xAA, 0x55, 0x01, 0x02, 0x00, 0x07, 0x08, 0x09]) ∧
    ((read_command_body esp32
        [0xAA, 0x55, 0x01, 0x02, 0x04, 0x01, 0x02, 0x03, 0x04, 0x05, 0x06, 0x07]
        { state := false, ch := 0 }).rx = [0x07]) := by
  decide

/-- C4, amended: for every header whose four constant bytes are AA 55 01 02 and whose
`data_len` is not 1, 2 or 3, `read_command_` fails. When `data_len` exceeds
`sizeof(data)`, the size of a pointer on the target, it has consumed exactly the five
header bytes when the drain starts and has stored nothing but the header; when
`data_len` is 0 and two more bytes are available, it has consumed those two footer
bytes as well. -/
theorem bad_length_fails (t : Target) (st : SonoffTXUltimate) (ev : TouchEvent) (b4 : Byte)
    (rest : List Byte) (h1 : b4.val ≠ 1) (h2 : b4.val ≠ 2) (h3 : b4.val ≠ 3) :
    (read_command_ t { st with rx := 0xAA :: 0x55 :: 0x01 :: 0x02 :: b4 :: rest } ev).1 = false ∧
    (t.sizeof_ptr < b4.val →
      (read_command_body t (0xAA :: 0x55 :: 0x01 :: 0x02 :: b4 :: rest) ev).rx = rest ∧
      (read_command_body t (0xAA :: 0x55 :: 0x01 :: 0x02 :: b4 :: rest) ev).buf
        = [0xAA, 0x55, 0x01, 0x02, b4]) ∧
    (b4.val = 0 → 2 ≤ rest.length →
      (read_command_body t (0xAA :: 0x55 :: 0x01 :: 0x02 :: b4 :: rest) ev).rx
        = rest.drop 2) := by
  refine ⟨body_bad_len t ev _ _ _ _ b4 rest h1 h2 h3, ?_, ?_⟩
  · intro h
    rw [body_len_too_big t ev b4 rest h]
    exact ⟨rfl, rfl⟩
  · intro h0 hr
    obtain rfl : b4 = 0 := Fin.ext h0
    rcases rest with _ | ⟨f0, _ | ⟨f1, rest⟩⟩
    · simp at hr
    · simp at hr
    · rw [body_len0]
      rfl

theorem bad_length_fails_witness :
    (((9 : Byte) : Nat) ≠ 1 ∧ ((9 : Byte) : Nat) ≠ 2 ∧ ((9 : Byte) : Nat) ≠ 3) ∧
    (read_command_ esp32
      { rx := [0xAA, 0x55, 0x01, 0x02, 0x09, 0x07, 0x08], read_count_ := 0,
        touch_binary_sensors_ := [] }
      { state := false, ch := 0 }).1 = false ∧
    (read_command_body esp32 [0xAA, 0x55, 0x01, 0x02, 0x09, 0x07, 0x08]
      { state := false, ch := 0 }).rx = [0x07, 0x08] :=
  ⟨by decide,
   (bad_length_fails esp32 { rx := [], read_count_ := 0, touch_binary_sensors_ := [] }
      { state := false, ch := 0 } 9 [0x07, 0x08] (by decide) (by decide) (by decide)).1,
   ((bad_length_fails esp32 { rx := [], read_count_ := 0, touch_binary_sensors_ := [] }
      { state := false, ch := 0 } 9 [0x07, 0x08] (by decide) (by decide) (by decide)).2.1
      (by decide)).1⟩


/-! ## Event decoder -/

set_option maxRecDepth 100000 in
theorem strip_byte (b : Byte) :
    (if b.val &&& 16 ≠ 0 then b.val &&& 239 else b.val) = clear_long_bit b.val := by
  revert b
  unfold clear_long_bit
  decide

theorem strip_release_timeout_eq (s : Bool) (b : Byte) :
    strip_release_timeout { state := s, ch := b.val }
      = { state := s, ch := clear_long_bit b.val } := by
  have h := strip_byte b
  unfold strip_release_timeout
  simp only [CH_RELEASE_TIMEOUT]
  split
  · next hc => rw [if_pos hc] at h; rw [← h]
  · next hc => rw [if_neg hc] at h; rw [← h]

theorem body_event_reference (t : Target) (rx : List Byte) (ev : TouchEvent)
    (h : (read_command_body t rx ev).success = true) :
    (read_command_body t rx ev).event = decode_reference rx := by
  rcases body_success_shape t rx ev h with
    ⟨p0, f0, f1, rest, rfl, hc⟩ | ⟨p0, p1, f0, f1, rest, rfl, hc⟩ |
    ⟨p0, p1, p2, f0, f1, rest, rfl, hc⟩
  · rw [body_len1, if_pos hc]
    simp [strip_release_timeout_eq, decode_reference, frame_channel_byte, frame_payload,
      frame_data_len]
  · rw [body_len2, if_pos hc]
    simp [strip_release_timeout_eq, decode_reference, frame_channel_byte, frame_payload,
      frame_data_len]
  · rw [body_len3, if_pos hc]
    simp [strip_release_timeout_eq, decode_reference, frame_channel_byte, frame_payload,
      frame_data_len, fin3_val]

/-- C5: for every frame accepted by `read_command_` the produced event equals the
reference decoding: the channel is the channel byte (`payload[0]` for `data_len` 1 or
3, `payload[1]` for `data_len` 2) with bit 0x10 cleared, and the event is a press
exactly when `data_len` is 2 and the release flag `payload[0]` is zero. In particular
any other accepted frame with the same `data_len`, the same channel byte and, for
`data_len` 2, a release flag that is zero exactly when this one is, gives the same
event: the trailing bytes of a `data_len` 3 payload and the magnitude of a non-zero
release flag play no role. -/
theorem accepted_event_is_reference_decoding (t : Target) (st : SonoffTXUltimate)
    (ev : TouchEvent) (h : (read_command_ t st ev).1 = true) :
    (read_command_ t st ev).2.1 = decode_reference st.rx ∧
    ∀ (st2 : SonoffTXUltimate) (ev2 : TouchEvent),
      (read_command_ t st2 ev2).1 = true →
      frame_data_len st2.rx = frame_data_len st.rx →
      frame_channel_byte st2.rx = frame_channel_byte st.rx →
      (frame_data_len st.rx = 2 →
        (((frame_payload st2.rx).getD 0 0).val = 0 ↔ ((frame_payload st.rx).getD 0 0).val = 0)) →
      (read_command_ t st2 ev2).2.1 = (read_command_ t st ev).2.1 := by
  rw [read_command_success] at h
  refine ⟨body_event_reference t st.rx ev h, ?_⟩
  intro st2 ev2 h2 hdl hcb hflag
  rw [read_command_success] at h2
  rw [read_command_event, read_command_event, body_event_reference t st.rx ev h,
    body_event_reference t st2.rx ev2 h2]
  unfold decode_reference
  rw [hcb, hdl]
  by_cases hd : frame_data_len st.rx = 2
  · simpa [hd] using hflag hd
  · simp [hd]

set_option maxRecDepth 100000 in
theorem accepted_event_is_reference_decoding_witness :
    (read_command_ esp32
        { rx := [0xAA, 0x55, 0x01, 0x02, 0x02, 0x00, 0x11, 0x3A, 0x45], read_count_ := 0,
          touch_binary_sensors_ := [] }
        { state := false, ch := 0 }).1 = true ∧
    (read_command_ esp32
        { rx := [0xAA, 0x55, 0x01, 0x02, 0x02, 0x00, 0x11, 0x3A, 0x45], read_count_ := 0,
          touch_binary_sensors_ := [] }
        { state := false, ch := 0 }).2.1
      = decode_reference [0xAA, 0x55, 0x01, 0x02, 0x02, 0x00, 0x11, 0x3A, 0x45] :=
  ⟨by decide,
   (accepted_event_is_reference_decoding esp32
      { rx := [0xAA, 0x55, 0x01, 0x02, 0x02, 0x00, 0x11, 0x3A, 0x45], read_count_ := 0,
        touch_binary_sensors_ := [] }
      { state := false, ch := 0 } (by decide)).1⟩

theorem body_encode_len2 (t : Target) (ev : TouchEvent) (p0 p1 : Byte) (rest : List Byte) :
    read_command_body t (encode_frame [p0, p1] ++ rest) ev =
      { success := true,
        event := { state := if p0.val ≠ 0 then false else true, ch := clear_long_bit p1.val },
        rx := rest,
        buf := [0xAA, 0x55, 1, 2, 2, p0, p1,
          Fin.ofNat (crc16_ccitt_false [1, 2, 2, p0, p1] / 256),
          Fin.ofNat (crc16_ccitt_false [1, 2, 2, p0, p1] % 256)] } := by
  have e : encode_frame [p0, p1] ++ rest = 0xAA :: 0x55 :: 1 :: 2 :: 2 :: p0 :: p1 ::
      Fin.ofNat (crc16_ccitt_false [1, 2, 2, p0, p1] / 256) ::
      Fin.ofNat (crc16_ccitt_false [1, 2, 2, p0, p1] % 256) :: rest := rfl
  rw [e, body_len2, if_pos (crc_bytes_roundtrip _ (crc16_ccitt_false_lt _)),
    strip_release_timeout_eq]

theorem body_encode_len1 (t : Target) (ev : TouchEvent) (p0 : Byte) (rest : List Byte) :
    read_command_body t (encode_frame [p0] ++ rest) ev =
      { success := true,
        event := { state := false, ch := clear_long_bit p0.val },
        rx := rest,
        buf := [0xAA, 0x55, 1, 2, 1, p0,
          Fin.ofNat (crc16_ccitt_false [1, 2, 1, p0] / 256),
          Fin.ofNat (crc16_ccitt_false [1, 2, 1, p0] % 256)] } := by
  have e : encode_frame [p0] ++ rest = 0xAA :: 0x55 :: 1 :: 2 :: 1 :: p0 ::
      Fin.ofNat (crc16_ccitt_false [1, 2, 1, p0] / 256) ::
      Fin.ofNat (crc16_ccitt_false [1, 2, 1, p0] % 256) :: rest := rfl
  rw [e, body_len1, if_pos (crc_bytes_roundtrip _ (crc16_ccitt_false_lt _)),
    strip_release_timeout_eq]

set_option maxRecDepth 100000 in
/-- C6, counterexample: the valid frame with `data_len = 2` and payload 00 11 is decoded
to channel 1 with `state = true`, a press, not to `pressed = false`. -/
theorem zero_release_flag_frame_is_press :
    valid_frame [0xAA, 0x55, 0x01, 0x02, 0x02, 0x00, 0x11, 0x3A, 0x45] ∧
    (read_command_ esp32
        { rx := [0xAA, 0x55, 0x01, 0x02, 0x02, 0x00, 0x11, 0x3A, 0x45], read_count_ := 0,
          touch_binary_sensors_ := [] }
        { state := false, ch := 0 }).1 = true ∧
    (read_command_ esp32
        { rx := [0xAA, 0x55, 0x01, 0x02, 0x02, 0x00, 0x11, 0x3A, 0x45], read_count_ := 0,
          touch_binary_sensors_ := [] }
        { state := false, ch := 0 }).2.1 ≠ { state := false, ch := 1 } := by
  decide

set_option maxRecDepth 100000 in
/-- C6, amended: the valid frame with `data_len = 2`, payload bytes 00 11 (release-flag
byte 0x00, channel byte 0x11) and a correct CRC, which is AA 55 01 02 02 00 11 3A 45,
is accepted and decoded to the normalized event channel = 1, pressed = true: a zero
release flag is a press. -/
theorem zero_release_flag_frame_decodes_to_press (t : Target) (st : SonoffTXUltimate)
    (ev : TouchEvent) (rest : List Byte) :
    encode_frame [0x00, 0x11] = [0xAA, 0x55, 0x01, 0x02, 0x02, 0x00, 0x11, 0x3A, 0x45] ∧
    (read_command_ t { st with rx := encode_frame [0x00, 0x11] ++ rest } ev).1 = true ∧
    (read_command_ t { st with rx := encode_frame [0x00, 0x11] ++ rest } ev).2.1
      = { state := true, ch := 1 } := by
  refine ⟨by decide, ?_, ?_⟩
  · rw [read_command_success, body_encode_len2]
  · rw [read_command_event, body_encode_len2]
    rfl

set_option maxRecDepth 100000 in
/-- C7, counterexample: the valid frame with `data_len = 2`, release flag 0x00 and
channel byte 0x0B is accepted and decoded to channel 11 with `state = true`. -/
theorem multi_channel_frame_can_decode_to_press :
    valid_frame [0xAA, 0x55, 0x01, 0x02, 0x02, 0x00, 0x0B, 0x89, 0x3E] ∧
    (read_command_ esp32
        { rx := [0xAA, 0x55, 0x01, 0x02, 0x02, 0x00, 0x0B, 0x89, 0x3E], read_count_ := 0,
          touch_binary_sensors_ := [] }
        { state := false, ch := 0 }).1 = true ∧
    (read_command_ esp32
        { rx := [0xAA, 0x55, 0x01, 0x02, 0x02, 0x00, 0x0B, 0x89, 0x3E], read_count_ := 0,
          touch_binary_sensors_ := [] }
        { state := false, ch := 0 }).2.1 = { state := true, ch := 11 } := by
  decide

/-- C7, amended: for every accepted frame whose normalized channel is 11 (multi-channel),
12 (swipe-right) or 13 (swipe-left), and whose `data_len` is 1 or 3 or whose release-flag
byte is non-zero, the decoded event has pressed = false. -/
theorem high_channel_release_frames_decode_to_release (t : Target) (st : SonoffTXUltimate)
    (ev : TouchEvent) (h : (read_command_ t st ev).1 = true)
    (_hch : (read_command_ t st ev).2.1.ch = 11 ∨ (read_command_ t st ev).2.1.ch = 12 ∨
      (read_command_ t st ev).2.1.ch = 13)
    (hrel : frame_data_len st.rx ≠ 2 ∨ ((frame_payload st.rx).getD 0 0).val ≠ 0) :
    (read_command_ t st ev).2.1.state = false := by
  rw [read_command_success] at h
  rw [read_command_event, body_event_reference t st.rx ev h]
  unfold decode_reference
  rcases hrel with hd | hf
  · simp [hd]
  · simp only [decide_eq_false_iff_not, not_and]
    exact fun _ => hf

set_option maxRecDepth 100000 in
theorem high_channel_release_frames_decode_to_release_witness :
    ((read_command_ esp32
        { rx := [0xAA, 0x55, 0x01, 0x02, 0x02, 0x01, 0x0B, 0xBA, 0x0F], read_count_ := 0,
          touch_binary_sensors_ := [] }
        { state := false, ch := 0 }).1 = true ∧
      (read_command_ esp32
        { rx := [0xAA, 0x55, 0x01, 0x02, 0x02, 0x01, 0x0B, 0xBA, 0x0F], read_count_ := 0,
          touch_binary_sensors_ := [] }
        { state := false, ch := 0 }).2.1.ch = 11) ∧
    (read_command_ esp32
        { rx := [0xAA, 0x55, 0x01, 0x02, 0x02, 0x01, 0x0B, 0xBA, 0x0F], read_count_ := 0,
          touch_binary_sensors_ := [] }
        { state := false, ch := 0 }).2.1.state = false :=
  ⟨by decide,
   high_channel_release_frames_decode_to_release esp32
    { rx := [0xAA, 0x55, 0x01, 0x02, 0x02, 0x01, 0x0B, 0xBA, 0x0F], read_count_ := 0,
      touch_binary_sensors_ := [] }
    { state := false, ch := 0 } (by decide) (Or.inl (by decide)) (Or.inr (by decide))⟩

/-! ## Dispatch -/

theorem process_eq (s : SonoffTXUltimateTouchBinarySensor) (ch : Nat) (b : Bool) (h : ch < 32) :
    s.process ch b = if s.has_channel ch = true then [b] else [] := by
  unfold SonoffTXUltimateTouchBinarySensor.process SonoffTXUltimateTouchBinarySensor.has_channel
  have hlt : 2 ^ ch < 2 ^ 32 := Nat.pow_lt_pow_right (by norm_num) h
  rw [Nat.one_shiftLeft, Nat.mod_eq_of_lt hlt, Nat.two_pow_and]
  have hp := Nat.two_pow_pos ch
  cases hb : s.channels_bitmap.testBit ch
  · simp
  · simp [hp.ne']

theorem publications_to_append (i : Nat) (xs ys : List (Nat × Bool)) :
    publications_to i (xs ++ ys) = publications_to i xs ++ publications_to i ys := by
  simp [publications_to]

theorem publications_to_tagged (i k : Nat) (bs : List Bool) :
    publications_to i (bs.map (fun b => (k, b))) = if k = i then bs else [] := by
  unfold publications_to
  by_cases h : k = i
  · simp [h, List.filter_map, Function.comp_def]
  · simp [h, List.filter_map, Function.comp_def]

theorem publications_to_process_from (ev : TouchEvent) (i : Nat)
    (l : List SonoffTXUltimateTouchBinarySensor) (k : Nat) :
    publications_to i (process_from ev k l) =
      if k ≤ i then ((l[i - k]?).map (process_one ev)).getD [] else [] := by
  induction l generalizing k with
  | nil => simp [process_from, publications_to]
  | cons s rest ih =>
    rw [process_from, publications_to_append, publications_to_tagged, ih]
    by_cases h1 : k = i
    · subst h1
      simp
    · by_cases h2 : k ≤ i
      · have h3 : k + 1 ≤ i := by omega
        obtain ⟨d, hd⟩ : ∃ d, i - k = d + 1 := ⟨i - k - 1, by omega⟩
        have h4 : i - (k + 1) = d := by omega
        simp [h1, h2, h3, hd, h4]
      · have h3 : ¬ k + 1 ≤ i := by omega
        simp [h1, h2, h3]

theorem publications_to_listener (st : SonoffTXUltimate) (ev : TouchEvent) (i : Nat)
    (s : SonoffTXUltimateTouchBinarySensor) (hs : st.touch_binary_sensors_[i]? = some s) :
    publications_to i (process_command_ st ev) = process_one ev s := by
  simp [process_command_, publications_to_process_from, hs]

/-- C8: for every event with channel 11, 12 or 13, whatever its `state`,
`process_command_` delivers to every listener whose channel mask includes that channel
exactly two publications, true then false, whether the listener has `press_only` set or
clear (the result does not mention the flag), and nothing to a listener whose mask lacks
the channel. -/
theorem high_channel_press_then_release (st : SonoffTXUltimate) (ev : TouchEvent) (i : Nat)
    (s : SonoffTXUltimateTouchBinarySensor)
    (hch : ev.ch = CH_MULTI ∨ ev.ch = CH_SWIPE_RIGHT ∨ ev.ch = CH_SWIPE_LEFT)
    (hs : st.touch_binary_sensors_[i]? = some s) :
    publications_to i (process_command_ st ev)
      = if s.has_channel ev.ch = true then [true, false] else [] := by
  rw [publications_to_listener st ev i s hs]
  simp only [CH_MULTI, CH_SWIPE_RIGHT, CH_SWIPE_LEFT] at hch
  have h32 : ev.ch < 32 := by omega
  have hgt : ev.ch > CH_MAX := by simp only [CH_MAX]; omega
  unfold process_one
  rw [if_pos (Or.inl hgt), process_eq _ _ _ h32, process_eq _ _ _ h32]
  split <;> rfl

theorem high_channel_press_then_release_witness :
    publications_to 1
      (process_command_
        { rx := [], read_count_ := 0,
          touch_binary_sensors_ :=
            [{ channels_bitmap := 0x20, press_only := false },
             { channels_bitmap := 0x1800, press_only := true },
             { channels_bitmap := 0x1000, press_only := false }] }
        { state := false, ch := 12 })
      = [true, false] :=
  high_channel_press_then_release _ { state := false, ch := 12 } 1
    { channels_bitmap := 0x1800, press_only := true } (Or.inr (Or.inl rfl)) rfl

/-- C9: for every press event (`state = true`) on an ordinary channel c in 1..10, a
`press_only` listener whose mask includes c observes exactly two publications, true
then false, and a listener without `press_only` whose mask includes c observes exactly
one publication, true. -/
theorem press_on_ordinary_channel (st : SonoffTXUltimate) (ev : TouchEvent) (i : Nat)
    (s : SonoffTXUltimateTouchBinarySensor)
    (hstate : ev.state = true) (_hlo : CH_MIN ≤ ev.ch) (hhi : ev.ch ≤ CH_MAX)
    (hs : st.touch_binary_sensors_[i]? = some s) (hmask : s.has_channel ev.ch = true) :
    publications_to i (process_command_ st ev)
      = if s.press_only = true then [true, false] else [true] := by
  rw [publications_to_listener st ev i s hs]
  simp only [CH_MAX] at hhi
  have h32 : ev.ch < 32 := by omega
  have hgt : ¬ ev.ch > CH_MAX := by simp only [CH_MAX]; omega
  unfold process_one
  simp only [process_eq _ _ _ h32, hmask, if_true, hstate,
    SonoffTXUltimateTouchBinarySensor.press_only_get, and_true, hgt, false_or]
  split <;> rfl

set_option maxRecDepth 100000 in
theorem press_on_ordinary_channel_witness :
    (read_command_ esp32
        { rx := [0xAA, 0x55, 0x01, 0x02, 0x02, 0x00, 0x05, 0x68, 0xF0], read_count_ := 0,
          touch_binary_sensors_ := [] }
        { state := false, ch := 0 }).2.1 = { state := true, ch := 5 } ∧
    publications_to 0
        (process_command_
          { rx := [], read_count_ := 0,
            touch_binary_sensors_ :=
              [{ channels_bitmap := 0x20, press_only := true },
               { channels_bitmap := 0x20, press_only := false }] }
          { state := true, ch := 5 })
        = [true, false] ∧
    publications_to 1
        (process_command_
          { rx := [], read_count_ := 0,
            touch_binary_sensors_ :=
              [{ channels_bitmap := 0x20, press_only := true },
               { channels_bitmap := 0x20, press_only := false }] }
          { state := true, ch := 5 })
        = [true] :=
  ⟨by decide,
   press_on_ordinary_channel _ { state := true, ch := 5 } 0
      { channels_bitmap := 0x20, press_only := true } rfl (by decide) (by decide) rfl
      (by decide),
   press_on_ordinary_channel _ { state := true, ch := 5 } 1
      { channels_bitmap := 0x20, press_only := false } rfl (by decide) (by decide) rfl
      (by decide)⟩

theorem clear_long_bit_low (c : Nat) (h : c < 16) : clear_long_bit c = c := by
  have hb : c.testBit 4 = false := by
    rw [Nat.testBit_to_div_mod, decide_eq_false_iff_not]
    omega
  simp [clear_long_bit, hb]

theorem encode_frame_length_pos (payload rest : List Byte) :
    (encode_frame payload ++ rest).length ≠ 0 := by
  simp [encode_frame]

/-- C10: end to end, for every ordinary channel c in 1..10, one polling tick (`loop`) on
a transport holding the valid `data_len = 1` frame for c (AA 55 01 02 01 c crc_hi
crc_lo) publishes exactly one state, false, to each registered listener whose mask
includes c, and nothing to a listener whose mask does not include c. -/
theorem release_frame_dispatch (t : Target) (st : SonoffTXUltimate) (c : Byte)
    (rest : List Byte) (i : Nat) (s : SonoffTXUltimateTouchBinarySensor)
    (_hlo : CH_MIN ≤ c.val) (hhi : c.val ≤ CH_MAX)
    (hrx : st.rx = encode_frame [c] ++ rest)
    (hs : st.touch_binary_sensors_[i]? = some s) :
    publications_to i (loop t st).2 = if s.has_channel c.val = true then [false] else [] := by
  simp only [CH_MAX] at hhi
  have hgt : ¬ c.val > CH_MAX := by simp only [CH_MAX]; omega
  rw [loop_trace, hrx, if_neg (encode_frame_length_pos _ _), body_encode_len1,
    clear_long_bit_low _ (by omega)]
  simp only [if_true]
  rw [publications_to_process_from]
  simp only [Nat.zero_le, if_true, Nat.sub_zero, hs, Option.map_some', Option.getD_some]
  unfold process_one
  simp only [hgt, false_or, Bool.false_eq_true, and_false, if_false]
  exact process_eq s c.val false (by omega)

set_option maxRecDepth 100000 in
theorem release_frame_dispatch_witness :
    encode_frame [0x05] = [0xAA, 0x55, 0x01, 0x02, 0x01, 0x05, 0xFF, 0x80] ∧
    publications_to 0
        (loop esp32
          { rx := encode_frame [0x05] ++ [], read_count_ := 0,
            touch_binary_sensors_ :=
              [{ channels_bitmap := 0x20, press_only := true },
               { channels_bitmap := 0x40, press_only := false }] }).2
        = [false] ∧
    publications_to 1
        (loop esp32
          { rx := encode_frame [0x05] ++ [], read_count_ := 0,
            touch_binary_sensors_ :=
              [{ channels_bitmap := 0x20, press_only := true },
               { channels_bitmap := 0x40, press_only := false }] }).2
        = [] :=
  ⟨by decide,
   release_frame_dispatch esp32 _ 0x05 [] 0 { channels_bitmap := 0x20, press_only := true }
      (by decide) (by decide) rfl rfl,
   release_frame_dispatch esp32 _ 0x05 [] 1 { channels_bitmap := 0x40, press_only := false }
      (by decide) (by decide) rfl rfl⟩

/-! ## Long-hold bit -/

theorem body_encode_len3 (t : Target) (ev : TouchEvent) (p0 p1 p2 : Byte) (rest : List Byte) :
    read_command_body t (encode_frame [p0, p1, p2] ++ rest) ev =
      { success := true,
        event := { state := false, ch := clear_long_bit p0.val },
        rx := rest,
        buf := [0xAA, 0x55, 1, 2, 3, p0, p1, p2,
          Fin.ofNat (crc16_ccitt_false [1, 2, 3, p0, p1, p2] / 256),
          Fin.ofNat (crc16_ccitt_false [1, 2, 3, p0, p1, p2] % 256)] } := by
  have e : encode_frame [p0, p1, p2] ++ rest = 0xAA :: 0x55 :: 1 :: 2 :: 3 :: p0 :: p1 :: p2 ::
      Fin.ofNat (crc16_ccitt_false [1, 2, 3, p0, p1, p2] / 256) ::
      Fin.ofNat (crc16_ccitt_false [1, 2, 3, p0, p1, p2] % 256) :: rest := rfl
  rw [e, body_len3, if_pos (crc_bytes_roundtrip _ (crc16_ccitt_false_lt _)),
    strip_release_timeout_eq]

set_option maxRecDepth 100000 in
theorem clear_long_bit_with_long_bit (c : Byte) :
    clear_long_bit (with_long_bit c).val = clear_long_bit c.val := by
  revert c
  unfold clear_long_bit with_long_bit
  decide

theorem strip_release_timeout_idem (e : TouchEvent) :
    strip_release_timeout (strip_release_timeout e) = strip_release_timeout e := by
  unfold strip_release_timeout
  simp only [CH_RELEASE_TIMEOUT]
  by_cases h : e.ch &&& 16 ≠ 0
  · have h2 : ¬ ((e.ch &&& (0xFF - 16)) &&& 16 ≠ 0) := by
      rw [Nat.and_assoc, show (0xFF - 16 : Nat) &&& 16 = 0 by decide, Nat.and_zero]
      simp
    rw [if_pos h]
    simp only [h2, if_false]
  · rw [if_neg h, if_neg h]

/-- C11: long-hold and ordinary releases are indistinguishable: for every payload of 1,
2 or 3 bytes and every channel byte c, the frame carrying c and the frame carrying c
with bit 0x10 set (each with its own CRC) are both accepted and decode to the same
normalized event; and stripping the bit is idempotent. -/
theorem long_hold_release_indistinguishable (t : Target) (st : SonoffTXUltimate)
    (ev : TouchEvent) (payload rest : List Byte) (c : Byte)
    (h1 : 1 ≤ payload.length) (h3 : payload.length ≤ 3) :
    (read_command_ t { st with rx := encode_frame (payload_with_channel payload c) ++ rest }
        ev).1 = true ∧
    (read_command_ t
        { st with rx := encode_frame (payload_with_channel payload (with_long_bit c)) ++ rest }
        ev).1 = true ∧
    (read_command_ t
        { st with rx := encode_frame (payload_with_channel payload (with_long_bit c)) ++ rest }
        ev).2.1
      = (read_command_ t
          { st with rx := encode_frame (payload_with_channel payload c) ++ rest } ev).2.1 ∧
    ∀ e : TouchEvent,
      strip_release_timeout (strip_release_timeout e) = strip_release_timeout e := by
  simp only [read_command_success, read_command_event]
  rcases payload with _ | ⟨p0, _ | ⟨p1, _ | ⟨p2, _ | ⟨p3, more⟩⟩⟩⟩
  · simp at h1
  · have e1 : ∀ x : Byte, payload_with_channel [p0] x = [x] := fun _ => rfl
    simp only [e1, body_encode_len1, clear_long_bit_with_long_bit, true_and]
    exact strip_release_timeout_idem
  · have e1 : ∀ x : Byte, payload_with_channel [p0, p1] x = [p0, x] := fun _ => rfl
    simp only [e1, body_encode_len2, clear_long_bit_with_long_bit, true_and]
    exact strip_release_timeout_idem
  · have e1 : ∀ x : Byte, payload_with_channel [p0, p1, p2] x = [x, p1, p2] := fun _ => rfl
    simp only [e1, body_encode_len3, clear_long_bit_with_long_bit, true_and]
    exact strip_release_timeout_idem
  · simp at h3

set_option maxRecDepth 100000 in
theorem long_hold_release_indistinguishable_witness :
    (1 ≤ ([0x03] : List Byte).length ∧ ([0x03] : List Byte).length ≤ 3) ∧
    with_long_bit 0x03 = 0x13 ∧
    (read_command_ esp32
        { rx := encode_frame (payload_with_channel [0x03] 0x03) ++ [], read_count_ := 0,
          touch_binary_sensors_ := [] }
        { state := false, ch := 0 }).2.1 = { state := false, ch := 3 } ∧
    (read_command_ esp32
        { rx := encode_frame (payload_with_channel [0x03] (with_long_bit 0x03)) ++ [],
          read_count_ := 0, touch_binary_sensors_ := [] }
        { state := false, ch := 0 }).2.1
      = (read_command_ esp32
          { rx := encode_frame (payload_with_channel [0x03] 0x03) ++ [], read_count_ := 0,
            touch_binary_sensors_ := [] }
          { state := false, ch := 0 }).2.1 :=
  ⟨by decide, by decide, by decide,
   (long_hold_release_indistinguishable esp32
      { rx := [], read_count_ := 0, touch_binary_sensors_ := [] }
      { state := false, ch := 0 } [0x03] [] 0x03 (by decide) (by decide)).2.2.1⟩

/-! ## Drain and read counter -/

theorem skip_loop_nil (rx : List Byte) : skip_loop rx = [] := by
  induction rx with
  | nil => rfl
  | cons b rest ih => simpa [skip_loop] using ih

theorem read_command_state (t : Target) (st : SonoffTXUltimate) (ev : TouchEvent) :
    (read_command_ t st ev).2.2 =
      { rx := [], read_count_ := (st.read_count_ + 1) % 2 ^ 32,
        touch_binary_sensors_ := st.touch_binary_sensors_ } := by
  simp [read_command_, skip_command_, skip_loop_nil]

set_option maxRecDepth 100000 in
/-- C12, counterexample: when the `unsigned int` counter holds 4294967295, a read
attempt (here a short header of one byte) leaves `read_count_` at 0: it has not
increased by one. -/
theorem read_count_wraps :
    (read_command_ esp32
        { rx := [0xAA], read_count_ := 4294967295, touch_binary_sensors_ := [] }
        { state := false, ch := 0 }).2.2.read_count_ = 0 ∧
    (read_command_ esp32
        { rx := [0xAA], read_count_ := 4294967295, touch_binary_sensors_ := [] }
        { state := false, ch := 0 }).2.2.read_count_ ≠ 4294967295 + 1 := by
  decide

/-- C12, amended: for every transport content, after `read_command_` returns, with
success or with any failure, the transport has zero bytes available and `read_count_`
has been incremented once as an unsigned 32-bit counter: it has increased by exactly
one, except from 4294967295, where it wraps to 0. The listeners are unchanged. -/
theorem read_command_drains_and_counts (t : Target) (st : SonoffTXUltimate)
    (ev : TouchEvent) :
    (read_command_ t st ev).2.2.rx = [] ∧
    available (read_command_ t st ev).2.2.rx = 0 ∧
    (read_command_ t st ev).2.2.read_count_ = (st.read_count_ + 1) % 2 ^ 32 ∧
    (st.read_count_ < 2 ^ 32 - 1 →
      (read_command_ t st ev).2.2.read_count_ = st.read_count_ + 1) ∧
    (st.read_count_ = 2 ^ 32 - 1 → (read_command_ t st ev).2.2.read_count_ = 0) ∧
    (read_command_ t st ev).2.2.touch_binary_sensors_ = st.touch_binary_sensors_ := by
  rw [read_command_state]
  refine ⟨rfl, rfl, rfl, ?_, ?_, rfl⟩
  · intro h
    exact Nat.mod_eq_of_lt (by omega)
  · intro h
    simp [h]

/-! ## Long-hold channel ids in a mask -/

set_option maxRecDepth 100000 in
theorem clear_long_bit_testBit (b : Byte) : (clear_long_bit b.val).testBit 4 = false := by
  revert b
  unfold clear_long_bit
  decide

theorem lt_16_of_bit4_clear (c : Nat) (h32 : c < 32) (hb : c.testBit 4 = false) : c < 16 := by
  rw [Nat.testBit_to_div_mod, decide_eq_false_iff_not] at hb
  omega

theorem accepted_channel_bit4_clear (t : Target) (rx : List Byte) (ev : TouchEvent)
    (h : (read_command_body t rx ev).success = true) :
    (read_command_body t rx ev).event.ch.testBit 4 = false := by
  rcases body_success_shape t rx ev h with
    ⟨p0, f0, f1, rest, rfl, hc⟩ | ⟨p0, p1, f0, f1, rest, rfl, hc⟩ |
    ⟨p0, p1, p2, f0, f1, rest, rfl, hc⟩
  · rw [body_len1, if_pos hc, strip_release_timeout_eq]
    exact clear_long_bit_testBit p0
  · rw [body_len2, if_pos hc, strip_release_timeout_eq]
    exact clear_long_bit_testBit p1
  · rw [body_len3, if_pos hc, strip_release_timeout_eq]
    exact clear_long_bit_testBit p0

theorem process_one_no_channel (ev : TouchEvent) (s : SonoffTXUltimateTouchBinarySensor)
    (h32 : ev.ch < 32) (hm : s.has_channel ev.ch = false) : process_one ev s = [] := by
  unfold process_one
  simp [process_eq _ _ _ h32, hm]

/-- C13: mask bits for the long-hold channel ids are dead. For every frame accepted by
`read_command_` the normalized channel has bit 0x10 clear, so it is not in 0x11..0x1A;
and when that channel is below 32, a listener whose mask contains only ids in
0x11..0x1A (`CH_LONG_MIN`..`CH_LONG_MAX`) receives no publication from the dispatch of
the decoded event. -/
theorem long_hold_mask_bits_dead (t : Target) (st : SonoffTXUltimate) (ev : TouchEvent)
    (h : (read_command_ t st ev).1 = true) :
    (read_command_ t st ev).2.1.ch &&& CH_LONG_BIT = 0 ∧
    ¬ (CH_LONG_MIN ≤ (read_command_ t st ev).2.1.ch ∧
        (read_command_ t st ev).2.1.ch ≤ CH_LONG_MAX) ∧
    ∀ (st2 : SonoffTXUltimate) (i : Nat) (s : SonoffTXUltimateTouchBinarySensor),
      (read_command_ t st ev).2.1.ch < 32 →
      st2.touch_binary_sensors_[i]? = some s →
      (∀ c, s.has_channel c = true → CH_LONG_MIN ≤ c ∧ c ≤ CH_LONG_MAX) →
      publications_to i (process_command_ st2 (read_command_ t st ev).2.1) = [] := by
  rw [read_command_success] at h
  rw [read_command_event]
  have hb := accepted_channel_bit4_clear t st.rx ev h
  have hz : (read_command_body t st.rx ev).event.ch &&& CH_LONG_BIT = 0 := by
    have e := (and_two_pow_eq_zero_iff (read_command_body t st.rx ev).event.ch 4).mpr
      (by
        rw [Nat.testBit_to_div_mod, decide_eq_false_iff_not] at hb
        omega)
    simpa [CH_LONG_BIT] using e
  refine ⟨hz, ?_, ?_⟩
  · simp only [CH_LONG_MIN, CH_LONG_MAX]
    rw [Nat.testBit_to_div_mod, decide_eq_false_iff_not] at hb
    omega
  · intro st2 i s h32 hs hmask
    rw [publications_to_listener st2 _ i s hs]
    apply process_one_no_channel _ _ h32
    have h16 := lt_16_of_bit4_clear _ h32 hb
    cases hm : s.has_channel (read_command_body t st.rx ev).event.ch
    · rfl
    · have := (hmask _ hm).1
      simp only [CH_LONG_MIN] at this
      omega

set_option maxRecDepth 100000 in
theorem long_hold_mask_bits_dead_witness :
    (read_command_ esp32
        { rx := [0xAA, 0x55, 0x01, 0x02, 0x02, 0x00, 0x11, 0x3A, 0x45], read_count_ := 0,
          touch_binary_sensors_ := [] }
        { state := false, ch := 0 }).1 = true ∧
    (read_command_ esp32
        { rx := [0xAA, 0x55, 0x01, 0x02, 0x02, 0x00, 0x11, 0x3A, 0x45], read_count_ := 0,
          touch_binary_sensors_ := [] }
        { state := false, ch := 0 }).2.1.ch = 1 ∧
    publications_to 0
      (process_command_
        { rx := [], read_count_ := 0,
          touch_binary_sensors_ := [{ channels_bitmap := 0x20000, press_only := false }] }
        (read_command_ esp32
          { rx := [0xAA, 0x55, 0x01, 0x02, 0x02, 0x00, 0x11, 0x3A, 0x45], read_count_ := 0,
            touch_binary_sensors_ := [] }
          { state := false, ch := 0 }).2.1) = [] :=
  ⟨by decide, by decide,
   (long_hold_mask_bits_dead esp32
      { rx := [0xAA, 0x55, 0x01, 0x02, 0x02, 0x00, 0x11, 0x3A, 0x45], read_count_ := 0,
        touch_binary_sensors_ := [] }
      { state := false, ch := 0 } (by decide)).2.2
      { rx := [], read_count_ := 0,
        touch_binary_sensors_ := [{ channels_bitmap := 0x20000, press_only := false }] }
      0 { channels_bitmap := 0x20000, press_only := false } (by decide) rfl
      (by
        intro c hc
        have h1 : (0x20000 : Nat).testBit c = true := hc
        rw [show (0x20000 : Nat) = 2 ^ 17 from rfl, Nat.testBit_two_pow] at h1
        have h2 : 17 = c := by simpa using h1
        subst h2
        decide)⟩

/-! ## Ordering and independence of the dispatch -/

theorem process_from_eq_flatMap (ev : TouchEvent)
    (l : List SonoffTXUltimateTouchBinarySensor) (k : Nat) :
    process_from ev k l =
      (l.enumFrom k).flatMap (fun p => (process_one ev p.2).map (fun b => (p.1, b))) := by
  induction l generalizing k with
  | nil => rfl
  | cons s rest ih =>
    rw [process_from, List.enumFrom_cons, List.flatMap_cons, ih]

theorem process_one_shape (ev : TouchEvent) (s : SonoffTXUltimateTouchBinarySensor) :
    process_one ev s = [] ∨ process_one ev s = [ev.state] ∨
      process_one ev s = [true, false] := by
  unfold process_one SonoffTXUltimateTouchBinarySensor.process
  split <;> split <;> simp_all

/-- C14: for every event and every list of registered listeners, the sequence of
publications made by `process_command_` is the concatenation, in registration order, of
each listener's own publications `process_one event s`, which are a function of the
event and of that listener's mask and `press_only` flag alone: the same listener
registered at any position of any other list gets the same publications. A listener's
publications are nothing, the single state of the event, or the synthesized pair with
true immediately before false. -/
theorem process_command_in_registration_order (st : SonoffTXUltimate) (ev : TouchEvent) :
    process_command_ st ev =
      st.touch_binary_sensors_.enum.flatMap
        (fun p => (process_one ev p.2).map (fun b => (p.1, b))) ∧
    (∀ (i : Nat) (s : SonoffTXUltimateTouchBinarySensor),
      st.touch_binary_sensors_[i]? = some s →
      publications_to i (process_command_ st ev) = process_one ev s ∧
      ∀ (st2 : SonoffTXUltimate) (j : Nat), st2.touch_binary_sensors_[j]? = some s →
        publications_to j (process_command_ st2 ev)
          = publications_to i (process_command_ st ev)) ∧
    (∀ s : SonoffTXUltimateTouchBinarySensor,
      process_one ev s = [] ∨ process_one ev s = [ev.state] ∨
        process_one ev s = [true, false]) := by
  refine ⟨?_, ?_, process_one_shape ev⟩
  · exact process_from_eq_flatMap ev st.touch_binary_sensors_ 0
  · intro i s hs
    refine ⟨publications_to_listener st ev i s hs, ?_⟩
    intro st2 j hs2
    rw [publications_to_listener st ev i s hs, publications_to_listener st2 ev j s hs2]

/-! ## Release events and press_only listeners -/

theorem release_to_listener (st : SonoffTXUltimate) (ev : TouchEvent) (i : Nat)
    (s : SonoffTXUltimateTouchBinarySensor) (hstate : ev.state = false)
    (hhi : ev.ch ≤ CH_MAX) (hs : st.touch_binary_sensors_[i]? = some s)
    (hmask : s.has_channel ev.ch = true) :
    publications_to i (process_command_ st ev) = [false] := by
  rw [publications_to_listener st ev i s hs]
  simp only [CH_MAX] at hhi
  have h32 : ev.ch < 32 := by omega
  have hgt : ¬ ev.ch > CH_MAX := by simp only [CH_MAX]; omega
  unfold process_one
  simp [process_eq _ _ _ h32, hmask, hstate, hgt]

/-- C15: evaluation of the code at the failing input. For the release event on channel
5, `process_command_` makes one publication, false, to the `press_only` listener whose
mask includes channel 5; and so it does for every release event on a channel up to 10
and every listener whose mask includes the channel, `press_only` or not. -/
theorem press_only_listener_receives_release :
    publications_to 0
        (process_command_
          { rx := [], read_count_ := 0,
            touch_binary_sensors_ := [{ channels_bitmap := 0x20, press_only := true }] }
          { state := false, ch := 5 }) = [false] ∧
    ∀ (st : SonoffTXUltimate) (ev : TouchEvent) (i : Nat)
      (s : SonoffTXUltimateTouchBinarySensor),
      ev.state = false → CH_MIN ≤ ev.ch → ev.ch ≤ CH_MAX →
      st.touch_binary_sensors_[i]? = some s → s.press_only = true →
      s.has_channel ev.ch = true →
      publications_to i (process_command_ st ev) = [false] := by
  refine ⟨by decide, ?_⟩
  intro st ev i s hstate _ hhi hs _ hmask
  exact release_to_listener st ev i s hstate hhi hs hmask

/-! ## Frame buffer -/

theorem body_buf_length (t : Target) (ev : TouchEvent) (b4 : Byte) (rest : List Byte)
    (hpass : ¬ b4.val > t.sizeof_ptr) (havail : b4.val + 2 ≤ rest.length) :
    (read_command_body t (0xAA :: 0x55 :: 1 :: 2 :: b4 :: rest) ev).buf.length
      = SIZEOF_HEADER + b4.val + SIZEOF_FOOTER := by
  simp only [read_command_body, read_array, SIZEOF_HEADER, SIZEOF_FOOTER]
  simp only [List.length_cons, Nat.le_add_left, ↓reduceIte, List.take, List.drop,
    List.getD_cons_succ, List.getD_cons_zero, havail, hpass]
  have hl : (List.take (b4.val + 2) rest).length = b4.val + 2 := by
    rw [List.length_take]
    omega
  split
  · next h => simp [HEADER_CONST_PREFIX] at h
  · split
    · simp [hl]
      omega
    · split
      · simp [hl]
        omega
      · simp [hl]
        omega

set_option maxRecDepth 100000 in
/-- C17: evaluation of the code at the failing input. On a 32-bit target `data_len = 4`
passes the length check, the combined data+footer read stores 6 bytes after the 5 header
bytes, and the 11 bytes stored exceed the capacity `TOUCH_EVENT_MAX_BYTES = 10`: the
store at index 10 is out of range. On every target the largest `data_len` that passes
the check, `sizeof(data)`, makes the stored bytes exceed the capacity. -/
theorem data_len_four_overflows_buffer :
    ¬ ((4 : Byte).val > esp32.sizeof_ptr) ∧
    TOUCH_EVENT_MAX_BYTES = 10 ∧
    (read_command_body esp32
        [0xAA, 0x55, 0x01, 0x02, 0x04, 0x01, 0x02, 0x03, 0x04, 0x05, 0x06]
        { state := false, ch := 0 }).buf.length = 11 ∧
    ¬ (SIZEOF_HEADER + (4 : Byte).val + SIZEOF_FOOTER ≤ TOUCH_EVENT_MAX_BYTES) ∧
    ∀ (t : Target) (ev : TouchEvent) (b4 : Byte) (rest : List Byte),
      b4.val = t.sizeof_ptr → b4.val + 2 ≤ rest.length →
      TOUCH_EVENT_MAX_BYTES
        < (read_command_body t (0xAA :: 0x55 :: 0x01 :: 0x02 :: b4 :: rest) ev).buf.length := by
  refine ⟨by decide, by decide, by decide, by decide, ?_⟩
  intro t ev b4 rest hb havail
  rw [body_buf_length t ev b4 rest (by omega) havail]
  have := sizeof_ptr_ge t
  simp only [TOUCH_EVENT_MAX_BYTES, SIZEOF_HEADER, SIZEOF_DATA, SIZEOF_FOOTER]
  omega

/-! ## One frame per polling tick -/

theorem valid_frame_shape (rx : List Byte) (h : valid_frame rx) :
    (∃ p0 f0 f1 rest, rx = 0xAA :: 0x55 :: 1 :: 2 :: 1 :: p0 :: f0 :: f1 :: rest ∧
        f0.val * 256 + f1.val = crc16_ccitt_false [1, 2, 1, p0]) ∨
    (∃ p0 p1 f0 f1 rest, rx = 0xAA :: 0x55 :: 1 :: 2 :: 2 :: p0 :: p1 :: f0 :: f1 :: rest ∧
        f0.val * 256 + f1.val = crc16_ccitt_false [1, 2, 2, p0, p1]) ∨
    (∃ p0 p1 p2 f0 f1 rest,
        rx = 0xAA :: 0x55 :: 1 :: 2 :: 3 :: p0 :: p1 :: p2 :: f0 :: f1 :: rest ∧
        f0.val * 256 + f1.val = crc16_ccitt_false [1, 2, 3, p0, p1, p2]) := by
  obtain ⟨hp, hd, hl, hc⟩ := h
  rcases rx with _ | ⟨b0, _ | ⟨b1, _ | ⟨b2, _ | ⟨b3, _ | ⟨b4, rest⟩⟩⟩⟩⟩
  · simp only [List.length_cons, List.length_nil, Fin.val_one, Fin.val_two, fin3_val] at hl
    omega
  · simp only [List.length_cons, List.length_nil, Fin.val_one, Fin.val_two, fin3_val] at hl
    omega
  · simp only [List.length_cons, List.length_nil, Fin.val_one, Fin.val_two, fin3_val] at hl
    omega
  · simp only [List.length_cons, List.length_nil, Fin.val_one, Fin.val_two, fin3_val] at hl
    omega
  · simp only [List.length_cons, List.length_nil, Fin.val_one, Fin.val_two, fin3_val] at hl
    omega
  simp only [List.take, List.cons.injEq, and_true] at hp
  obtain ⟨rfl, rfl, rfl, rfl⟩ := hp
  simp only [frame_data_len, List.getD_cons_succ, List.getD_cons_zero] at hd hl hc
  rcases hd with hd | hd | hd
  · obtain rfl : b4 = 1 := Fin.ext hd
    rcases rest with _ | ⟨p0, _ | ⟨f0, _ | ⟨f1, rest⟩⟩⟩
    · simp only [List.length_cons, List.length_nil, Fin.val_one, Fin.val_two, fin3_val] at hl
      omega
    · simp only [List.length_cons, List.length_nil, Fin.val_one, Fin.val_two, fin3_val] at hl
      omega
    · simp only [List.length_cons, List.length_nil, Fin.val_one, Fin.val_two, fin3_val] at hl
      omega
    · exact Or.inl ⟨p0, f0, f1, rest, rfl, by simpa using hc⟩
  · obtain rfl : b4 = 2 := Fin.ext hd
    rcases rest with _ | ⟨p0, _ | ⟨p1, _ | ⟨f0, _ | ⟨f1, rest⟩⟩⟩⟩
    · simp only [List.length_cons, List.length_nil, Fin.val_one, Fin.val_two, fin3_val] at hl
      omega
    · simp only [List.length_cons, List.length_nil, Fin.val_one, Fin.val_two, fin3_val] at hl
      omega
    · simp only [List.length_cons, List.length_nil, Fin.val_one, Fin.val_two, fin3_val] at hl
      omega
    · simp only [List.length_cons, List.length_nil, Fin.val_one, Fin.val_two, fin3_val] at hl
      omega
    · exact Or.inr (Or.inl ⟨p0, p1, f0, f1, rest, rfl, by simpa using hc⟩)
  · obtain rfl : b4 = 3 := Fin.ext hd
    rcases rest with _ | ⟨p0, _ | ⟨p1, _ | ⟨p2, _ | ⟨f0, _ | ⟨f1, rest⟩⟩⟩⟩⟩
    · simp only [List.length_cons, List.length_nil, Fin.val_one, Fin.val_two, fin3_val] at hl
      omega
    · simp only [List.length_cons, List.length_nil, Fin.val_one, Fin.val_two, fin3_val] at hl
      omega
    · simp only [List.length_cons, List.length_nil, Fin.val_one, Fin.val_two, fin3_val] at hl
      omega
    · simp only [List.length_cons, List.length_nil, Fin.val_one, Fin.val_two, fin3_val] at hl
      omega
    · simp only [List.length_cons, List.length_nil, Fin.val_one, Fin.val_two, fin3_val] at hl
      omega
    · exact Or.inr (Or.inr ⟨p0, p1, p2, f0, f1, rest, rfl, by simpa [fin3_val] using hc⟩)

theorem success_of_valid_frame (t : Target) (rx : List Byte) (ev : TouchEvent)
    (h : valid_frame rx) : (read_command_body t rx ev).success = true := by
  rcases valid_frame_shape rx h with
    ⟨p0, f0, f1, rest, rfl, hc⟩ | ⟨p0, p1, f0, f1, rest, rfl, hc⟩ |
    ⟨p0, p1, p2, f0, f1, rest, rfl, hc⟩
  · rw [body_len1, if_pos hc]
  · rw [body_len2, if_pos hc]
  · rw [body_len3, if_pos hc]

theorem valid_frame_first_frame (rx : List Byte) (h : valid_frame rx) :
    valid_frame (rx.take (7 + frame_data_len rx)) ∧
    decode_reference (rx.take (7 + frame_data_len rx)) = decode_reference rx := by
  rcases valid_frame_shape rx h with
    ⟨p0, f0, f1, rest, rfl, hc⟩ | ⟨p0, p1, f0, f1, rest, rfl, hc⟩ |
    ⟨p0, p1, p2, f0, f1, rest, rfl, hc⟩
  · refine ⟨?_, ?_⟩
    · simpa [valid_frame, frame_data_len] using hc
    · simp [decode_reference, frame_channel_byte, frame_payload, frame_data_len]
  · refine ⟨?_, ?_⟩
    · simpa [valid_frame, frame_data_len] using hc
    · simp [decode_reference, frame_channel_byte, frame_payload, frame_data_len]
  · refine ⟨?_, ?_⟩
    · simpa [valid_frame, frame_data_len, fin3_val] using hc
    · simp [decode_reference, frame_channel_byte, frame_payload, frame_data_len, fin3_val]

theorem valid_frame_length_pos (rx : List Byte) (h : valid_frame rx) : rx.length ≠ 0 := by
  have := h.2.2.1
  omega

theorem loop_trace_valid (t : Target) (st : SonoffTXUltimate) (h : valid_frame st.rx) :
    (loop t st).2 = process_command_ st (decode_reference st.rx) := by
  have hs := success_of_valid_frame t st.rx { state := false, ch := 0 } h
  rw [loop_trace, if_neg (valid_frame_length_pos _ h), if_pos hs,
    body_event_reference t st.rx _ hs]
  rfl

theorem loop_state (t : Target) (st : SonoffTXUltimate) (h : st.rx.length ≠ 0) :
    (loop t st).1 =
      { rx := [], read_count_ := (st.read_count_ + 1) % 2 ^ 32,
        touch_binary_sensors_ := st.touch_binary_sensors_ } := by
  have hst := read_command_state t st { state := false, ch := 0 }
  unfold loop available
  rw [if_neg h]
  rcases hr : read_command_ t st { state := false, ch := 0 } with ⟨ok, e, st1⟩
  rw [hr] at hst
  cases ok
  · exact hst
  · exact hst

/-- C16: one polling tick handles at most one frame: when the transport content starts
with a valid frame, whatever bytes follow it (a second complete valid frame included),
`loop` makes exactly the publications of the dispatch of the first frame's event, the
same as on a transport holding the first frame alone, and leaves the transport empty. -/
theorem loop_handles_one_frame (t : Target) (st : SonoffTXUltimate)
    (h : valid_frame st.rx) :
    (loop t st).2 = process_command_ st (decode_reference st.rx) ∧
    (loop t st).2
      = (loop t { st with rx := st.rx.take (7 + frame_data_len st.rx) }).2 ∧
    (loop t st).1.rx = [] ∧ available (loop t st).1.rx = 0 := by
  have hf := valid_frame_first_frame st.rx h
  refine ⟨loop_trace_valid t st h, ?_, ?_, ?_⟩
  · rw [loop_trace_valid t st h, loop_trace_valid t _ hf.1]
    show _ = process_command_ _ (decode_reference (st.rx.take (7 + frame_data_len st.rx)))
    rw [hf.2]
    rfl
  · rw [loop_state t st (valid_frame_length_pos _ h)]
  · rw [loop_state t st (valid_frame_length_pos _ h)]
    rfl

set_option maxRecDepth 100000 in
theorem loop_handles_one_frame_witness :
    valid_frame ([0xAA, 0x55, 0x01, 0x02, 0x01, 0x05, 0xFF, 0x80] ++ encode_frame [0x00, 0x06]) ∧
    valid_frame (encode_frame [0x00, 0x06]) ∧
    (loop esp32
        { rx := [0xAA, 0x55, 0x01, 0x02, 0x01, 0x05, 0xFF, 0x80] ++ encode_frame [0x00, 0x06],
          read_count_ := 0,
          touch_binary_sensors_ := [{ channels_bitmap := 0x60, press_only := false }] }).2
      = process_command_
          { rx := [], read_count_ := 0,
            touch_binary_sensors_ := [{ channels_bitmap := 0x60, press_only := false }] }
          { state := false, ch := 5 } ∧
    (loop esp32
        { rx := [0xAA, 0x55, 0x01, 0x02, 0x01, 0x05, 0xFF, 0x80] ++ encode_frame [0x00, 0x06],
          read_count_ := 0,
          touch_binary_sensors_ := [{ channels_bitmap := 0x60, press_only := false }] }).1.rx
      = [] :=
  ⟨by decide, by decide,
   (loop_handles_one_frame esp32
      { rx := [0xAA, 0x55, 0x01, 0x02, 0x01, 0x05, 0xFF, 0x80] ++ encode_frame [0x00, 0x06],
        read_count_ := 0,
        touch_binary_sensors_ := [{ channels_bitmap := 0x60, press_only := false }] }
      (by decide)).1,
   (loop_handles_one_frame esp32
      { rx := [0xAA, 0x55, 0x01, 0x02, 0x01, 0x05, 0xFF, 0x80] ++ encode_frame [0x00, 0x06],
        read_count_ := 0,
        touch_binary_sensors_ := [{ channels_bitmap := 0x60, press_only := false }] }
      (by decide)).2.2.1⟩

/-! ## Last published state -/

theorem process_one_last_false (ev : TouchEvent) (s : SonoffTXUltimateTouchBinarySensor)
    (hm : s.press_only = true ∨ ev.ch > CH_MAX) (hne : process_one ev s ≠ []) :
    (process_one ev s).getLast? = some false := by
  unfold process_one SonoffTXUltimateTouchBinarySensor.process at hne ⊢
  simp only [SonoffTXUltimateTouchBinarySensor.press_only_get] at hne ⊢
  by_cases hc : ev.ch > CH_MAX ∨ (s.press_only = true ∧ ev.state = true)
  · rw [if_pos hc] at hne ⊢
    split
    · next hz =>
      simp only [if_pos hz] at hne
      exact absurd rfl hne
    · rfl
  · rw [if_neg hc] at hne ⊢
    have hstate : ev.state = false := by
      rcases hm with hp | hg
      · cases hst : ev.state
        · rfl
        · exact absurd (Or.inr ⟨hp, hst⟩) hc
      · exact absurd (Or.inl hg) hc
    split
    · next hz =>
      simp only [if_pos hz] at hne
      exact absurd rfl hne
    · rw [hstate]
      rfl

/-- C18: a `press_only` listener is never left in the pressed state: for every event
with channel below 32 and every `press_only` listener, if `process_command_` makes at
least one publication to that listener, the last state it publishes is false; the same
holds for every listener, `press_only` or not, when the event's channel is greater
than 10. -/
theorem last_publication_is_release (st : SonoffTXUltimate) (ev : TouchEvent) (i : Nat)
    (s : SonoffTXUltimateTouchBinarySensor) (_h32 : ev.ch < 32)
    (hs : st.touch_binary_sensors_[i]? = some s)
    (hm : s.press_only = true ∨ ev.ch > CH_MAX)
    (hne : publications_to i (process_command_ st ev) ≠ []) :
    (publications_to i (process_command_ st ev)).getLast? = some false := by
  rw [publications_to_listener st ev i s hs] at hne ⊢
  exact process_one_last_false ev s hm hne

theorem last_publication_is_release_witness :
    publications_to 0
        (process_command_
          { rx := [], read_count_ := 0,
            touch_binary_sensors_ :=
              [{ channels_bitmap := 0x20, press_only := true },
               { channels_bitmap := 0x1000, press_only := false }] }
          { state := true, ch := 5 }) = [true, false] ∧
    (publications_to 0
        (process_command_
          { rx := [], read_count_ := 0,
            touch_binary_sensors_ :=
              [{ channels_bitmap := 0x20, press_only := true },
               { channels_bitmap := 0x1000, press_only := false }] }
          { state := true, ch := 5 })).getLast? = some false ∧
    (publications_to 1
        (process_command_
          { rx := [], read_count_ := 0,
            touch_binary_sensors_ :=
              [{ channels_bitmap := 0x20, press_only := true },
               { channels_bitmap := 0x1000, press_only := false }] }
          { state := false, ch := 12 })).getLast? = some false :=
  ⟨by decide,
   last_publication_is_release _ { state := true, ch := 5 } 0
      { channels_bitmap := 0x20, press_only := true } (by decide) rfl (Or.inl rfl)
      (by decide),
   last_publication_is_release _ { state := false, ch := 12 } 1
      { channels_bitmap := 0x1000, press_only := false } (by decide) rfl
      (Or.inr (by decide)) (by decide)⟩

end sonoff_tx_ultimate
